import Mathlib

/-!
Shallow embedding of the polyglot-llm library core, translated from the Go
sources, together with proofs settling the specification claims.

Conventions of the embedding:
* Go strings are Lean `String`; byte slices that only ever hold text are
  also `String`.
* Go `error` results are `Except GoError α` with `GoError := String`
  (the error message).
* Go `float64` is modelled as `ℚ` where arithmetic matters (embeddings);
  JSON numbers elsewhere are modelled with integer part only, since no
  claim depends on fractional JSON literals.
* External collaborators (HTTP providers, MCP servers) are parameters:
  functions from the request the code builds to the `Except`-value the
  code receives back.
* `encoding/json` behaviour on `any` / `map[string]any` values is modelled
  by the `JVal` type with `goJSONParse` / `jsonSerialize` below; `\u`
  escapes and HTML escaping are not modelled and no proof input uses them.
-/

abbrev GoError := String

/-- Whitespace set of Go `unicode.IsSpace` restricted to ASCII, which is the
    alphabet used throughout the proofs. -/
def goWhitespace (c : Char) : Bool :=
  c = ' ' || c = '\t' || c = '\n' || c = '\x0b' || c = '\x0c' || c = '\r'

/-- Model of Go `strings.TrimSpace`. -/
def goTrimSpace (s : String) : String :=
  String.mk (((s.toList.dropWhile goWhitespace).reverse.dropWhile goWhitespace).reverse)

/-- Model of Go `strings.HasPrefix`. -/
def goHasPre (s pre : String) : Bool :=
  pre.toList.isPrefixOf s.toList

/-- Model of Go `strings.HasSuffix`. -/
def goHasSuf (s suf : String) : Bool :=
  suf.toList.reverse.isPrefixOf s.toList.reverse

/-- Model of Go `strings.TrimPrefix`: drop `pre` when it leads `s`. -/
def goCutPre (s pre : String) : String :=
  if goHasPre s pre then String.mk (s.toList.drop pre.toList.length) else s

/-- Model of Go `strings.TrimSuffix`: drop `suf` when it ends `s`. -/
def goCutSuf (s suf : String) : String :=
  if goHasSuf s suf then String.mk (s.toList.take (s.toList.length - suf.toList.length)) else s

/-- Model of Go `strings.ToLower` on the ASCII alphabet used here. -/
def goToLower (s : String) : String :=
  String.mk (s.toList.map fun c =>
    if 'A' ≤ c && c ≤ 'Z' then Char.ofNat (c.toNat + 32) else c)

/-- JSON values as produced by Go `encoding/json` unmarshalling into `any`:
    null, booleans, numbers (integer part only), strings, arrays, objects. -/
inductive JVal where
  | null
  | bool (b : Bool)
  | num (n : Int)
  | str (s : String)
  | arr (xs : List JVal)
  | obj (fields : List (String × JVal))

/-- Escape one character the way Go `encoding/json` escapes string content
    (quotes, backslashes, common control characters; HTML escaping of
    `<`, `>`, `&` is not modelled and never exercised). -/
def jsonEscapeChar (c : Char) : String :=
  if c = '"' then "\\\""
  else if c = '\\' then "\\\\"
  else if c = '\n' then "\\n"
  else if c = '\t' then "\\t"
  else if c = '\r' then "\\r"
  else String.mk [c]

def jsonEscape (s : String) : String :=
  String.join (s.toList.map jsonEscapeChar)

def jsonQuote (s : String) : String :=
  "\"" ++ jsonEscape s ++ "\""

mutual

/-- Model of Go `json.Marshal` on `JVal` (always succeeds). -/
def jsonSerialize : JVal → String
  | .null => "null"
  | .bool true => "true"
  | .bool false => "false"
  | .num n => toString n
  | .str s => jsonQuote s
  | .arr xs => "[" ++ serElems xs ++ "]"
  | .obj fields => "\x7b" ++ serFields fields ++ "\x7d"

/-- Comma-separated serialization of JSON array elements. -/
def serElems : List JVal → String
  | [] => ""
  | [x] => jsonSerialize x
  | x :: y :: xs => jsonSerialize x ++ "," ++ serElems (y :: xs)

/-- Comma-separated serialization of JSON object fields. -/
def serFields : List (String × JVal) → String
  | [] => ""
  | [(k, v)] => jsonQuote k ++ ":" ++ jsonSerialize v
  | (k, v) :: f :: fs => jsonQuote k ++ ":" ++ jsonSerialize v ++ "," ++ serFields (f :: fs)

end

namespace JParse

/-- Unescape one escaped character of a JSON string literal (common escapes
    only; `\u` sequences are not modelled). -/
def unescapeChar (c : Char) : Char :=
  if c = 'n' then '\n'
  else if c = 't' then '\t'
  else if c = 'r' then '\r'
  else c

/-- Scan a JSON string literal body after the opening quote; returns the
    decoded string and the input remaining after the closing quote. -/
def scanStringLit : List Char → Option (String × List Char)
  | [] => none
  | '"' :: rest => some ("", rest)
  | '\\' :: c :: rest =>
      (scanStringLit rest).map fun r => (String.mk [unescapeChar c] ++ r.1, r.2)
  | c :: rest =>
      (scanStringLit rest).map fun r => (String.mk [c] ++ r.1, r.2)

def skipWs (cs : List Char) : List Char :=
  cs.dropWhile goWhitespace

/-- Decimal value of a digit run. -/
def digitsToNat (cs : List Char) : Nat :=
  cs.foldl (fun acc c => acc * 10 + (c.toNat - '0'.toNat)) 0

/-- Scan the digits/sign/fraction/exponent body of a JSON number, starting at
    a character already known to open a number; value kept is the integer
    part (no claim depends on fractional values). -/
def scanNumber (cs : List Char) : Option (Int × List Char) :=
  let (neg, cs) := match cs with
    | '-' :: rest => (true, rest)
    | _ => (false, cs)
  let intDigits := cs.takeWhile Char.isDigit
  let rest := cs.dropWhile Char.isDigit
  if intDigits.isEmpty then none
  else
    let rest :=
      match rest with
      | '.' :: more =>
          if (more.takeWhile Char.isDigit).isEmpty then '.' :: more
          else more.dropWhile Char.isDigit
      | other => other
    let rest :=
      match rest with
      | 'e' :: more => expTail more
      | 'E' :: more => expTail more
      | other => other
    let mag : Int := Int.ofNat (digitsToNat intDigits)
    some (if neg then -mag else mag, rest)
where
  expTail (more : List Char) : List Char :=
    let more' := match more with
      | '+' :: t => t
      | '-' :: t => t
      | t => t
    more'.dropWhile Char.isDigit

mutual

/-- Recursive-descent JSON value scanner with fuel; models the grammar
    accepted by Go `encoding/json`. -/
def scanVal : Nat → List Char → Option (JVal × List Char)
  | 0, _ => none
  | fuel + 1, cs =>
      match skipWs cs with
      | 'n' :: 'u' :: 'l' :: 'l' :: rest => some (.null, rest)
      | 't' :: 'r' :: 'u' :: 'e' :: rest => some (.bool true, rest)
      | 'f' :: 'a' :: 'l' :: 's' :: 'e' :: rest => some (.bool false, rest)
      | '"' :: rest => (scanStringLit rest).map fun r => (.str r.1, r.2)
      | '\x7b' :: rest =>
          (match skipWs rest with
           | '\x7d' :: rest' => some (.obj [], rest')
           | _ => (scanFields fuel rest).map fun r => (.obj r.1, r.2))
      | '[' :: rest =>
          (match skipWs rest with
           | ']' :: rest' => some (.arr [], rest')
           | _ => (scanElems fuel rest).map fun r => (.arr r.1, r.2))
      | c :: rest =>
          if c = '-' || c.isDigit then
            (scanNumber (c :: rest)).map fun r => (.num r.1, r.2)
          else none
      | [] => none

/-- Scan the comma-separated elements of a JSON array up to `]`. -/
def scanElems : Nat → List Char → Option (List JVal × List Char)
  | 0, _ => none
  | fuel + 1, cs =>
      match scanVal fuel cs with
      | none => none
      | some (v, rest) =>
          match skipWs rest with
          | ',' :: rest' =>
              (scanElems fuel rest').map fun r => (v :: r.1, r.2)
          | ']' :: rest' => some ([v], rest')
          | _ => none

/-- Scan the comma-separated `"key": value` fields of a JSON object. -/
def scanFields : Nat → List Char → Option (List (String × JVal) × List Char)
  | 0, _ => none
  | fuel + 1, cs =>
      match skipWs cs with
      | '"' :: rest =>
          match scanStringLit rest with
          | none => none
          | some (key, rest) =>
              match skipWs rest with
              | ':' :: rest =>
                  match scanVal fuel rest with
                  | none => none
                  | some (v, rest) =>
                      match skipWs rest with
                      | ',' :: rest' =>
                          (scanFields fuel rest').map fun r => ((key, v) :: r.1, r.2)
                      | '\x7d' :: rest' => some ([(key, v)], rest')
                      | _ => none
              | _ => none
      | _ => none

end

end JParse

/-- Model of Go `encoding/json` parsing of a complete document into `any`;
    `none` models an unmarshal error. -/
def goJSONParse (s : String) : Option JVal :=
  match JParse.scanVal (s.length + 1) s.toList with
  | some (v, rest) => if (JParse.skipWs rest).isEmpty then some v else none
  | none => none

/-- Model of Go `json.Valid`. -/
def jsonValid (s : String) : Bool :=
  (goJSONParse s).isSome

example : goJSONParse "\x7b\"a\": [1, true, \"x\"]\x7d" =
    some (.obj [("a", .arr [.num 1, .bool true, .str "x"])]) := rfl

example : goJSONParse "```json" = none := rfl

example : jsonSerialize (.obj [("error", .str "boom")]) = "\x7b\"error\":\"boom\"\x7d" := by
  decide

/-! ## pkg/model: shared data model (`pkg/model/llm.go`) -/

namespace Model

/-- `model.ContextMessageType` is a Go string type; the three constants are
    "system", "human", "assistant". -/
abbrev ContextMessageType := String

def ContextMessageTypeSystem : ContextMessageType := "system"
def ContextMessageTypeHuman : ContextMessageType := "human"
def ContextMessageTypeAssistant : ContextMessageType := "assistant"

structure PromptContext where
  messageType : ContextMessageType
  content : String

/-- `model.ReasoningLevel` is a Go string type. -/
abbrev ReasoningLevel := String

/-- Scalar fields of `model.GeneratorConfig`; `Tools`/`MCPTools` are passed
    to the embedded flows as explicit parameters, mirroring how the Go flows
    receive them. -/
structure GeneratorConfig where
  ignoreInvalidGeneratorOptions : Bool := false
  url : String := ""
  authToken : String := ""
  temperature : Option ℚ := none
  maxTokens : Option Int := none
  embeddingDimensions : Option Int := none
  model : Option String := none
  reasoningLevel : Option ReasoningLevel := none

/-- `model.GenerationMetadata` (a Go `map[string]string`), modelled as an
    association list with update-or-insert writes. -/
abbrev GenerationMetadata := List (String × String)

/-- Map write `meta[key] = value` (keys are unique by construction). -/
def metaSet : GenerationMetadata → String → String → GenerationMetadata
  | [], key, value => [(key, value)]
  | kv :: rest, key, value =>
      if kv.1 = key then (key, value) :: rest
      else kv :: metaSet rest key value

/-- Map read `meta[key]`. -/
def metaGet : GenerationMetadata → String → Option String
  | [], _ => none
  | kv :: rest, key => if kv.1 = key then some kv.2 else metaGet rest key

theorem metaGet_metaSet_same (m : GenerationMetadata) (k v : String) :
    metaGet (metaSet m k v) k = some v := by
  induction m with
  | nil => simp [metaSet, metaGet]
  | cons kv rest ih =>
      by_cases h : kv.1 = k
      · simp [metaSet, metaGet, h]
      · simp [metaSet, metaGet, h, ih]

theorem metaGet_metaSet_other (m : GenerationMetadata) (k k' v : String) (h : k' ≠ k) :
    metaGet (metaSet m k v) k' = metaGet m k' := by
  induction m with
  | nil => simp [metaSet, metaGet, Ne.symm h]
  | cons kv rest ih =>
      by_cases hk : kv.1 = k
      · subst hk
        simp [metaSet, metaGet, Ne.symm h]
      · simp only [metaSet, if_neg hk, metaGet]
        by_cases hk' : kv.1 = k'
        · simp [hk']
        · simp [hk', ih]

def MetadataKeyProvider : String := "provider"
def MetadataKeyModel : String := "model"
def MetadataKeyLatencyMs : String := "latency_ms"
def MetadataKeyInputTokens : String := "input_tokens"
def MetadataKeyOutputTokens : String := "output_tokens"
def MetadataKeyTotalTokens : String := "total_tokens"
def MetadataKeyCachedInputTokens : String := "cached_input_tokens"
def MetadataKeyReasoningTokens : String := "reasoning_tokens"
def MetadataKeyAPICalls : String := "api_calls"
def MetadataKeyToolRounds : String := "tool_rounds"
def MetadataKeyResponseID : String := "response_id"
def MetadataKeyResponseStatus : String := "response_status"

/-- `model.AudioKeyword` (`pkg/model/audio.go`). -/
structure AudioKeyword where
  word : String
  commonMistypes : List String
  definition : String
deriving DecidableEq

/-- `model.AudioOptions` (`pkg/model/audio.go`). -/
structure AudioOptions where
  ignoreInvalidGeneratorOptions : Bool := false
  url : String := ""
  authToken : String := ""
  model : String := ""
  prompt : String := ""
  keywords : List AudioKeyword := []

end Model

/-! ## pkg/llms/openai_response: model classification and option
normalization (`openai_response.go`) -/

namespace OpenAIResponse

/-- `isReasoningModel` from `openai_response.go`. -/
def isReasoningModel (modelName : String) : Bool :=
  let name := goToLower (goTrimSpace modelName)
  if name = "" then false
  else
    goHasPre name "o1" || goHasPre name "o3" || goHasPre name "o4" ||
      goHasPre name "gpt-5"

/-- `normalizeGeneratorOptionsForModel` from `openai_response.go` (the logger
    is write-only there and omitted here). -/
def normalizeGeneratorOptionsForModel (modelName : String) (cfg : Model.GeneratorConfig) :
    Except GoError Model.GeneratorConfig :=
  let reasoningModel := isReasoningModel modelName
  let step1 : Except GoError Model.GeneratorConfig :=
    if cfg.temperature.isSome && reasoningModel then
      if cfg.ignoreInvalidGeneratorOptions then
        .ok { cfg with temperature := none }
      else
        .error ("temperature is not supported for reasoning model \"" ++ modelName ++ "\"")
    else
      .ok cfg
  match step1 with
  | .error e => .error e
  | .ok cfg =>
      if cfg.reasoningLevel.isSome && !reasoningModel then
        if cfg.ignoreInvalidGeneratorOptions then
          .ok { cfg with reasoningLevel := none }
        else
          .error ("reasoning effort is not supported for non-reasoning model \"" ++
            modelName ++ "\"")
      else
        .ok cfg

end OpenAIResponse

/-- C4: a model is reasoning-capable exactly when its (trimmed, lowercased)
    name begins with one of the prefixes o1, o3, o4, gpt-5; a set temperature
    on a reasoning-capable model fails unless `ignoreInvalidOptions`, in which
    case temperature is dropped; symmetrically for `reasoningLevel` on a
    sampling-capable model. -/
theorem C4_option_normalization :
    (∀ m : String, OpenAIResponse.isReasoningModel m =
        (goHasPre (goToLower (goTrimSpace m)) "o1" ||
         goHasPre (goToLower (goTrimSpace m)) "o3" ||
         goHasPre (goToLower (goTrimSpace m)) "o4" ||
         goHasPre (goToLower (goTrimSpace m)) "gpt-5")) ∧
    (∀ (m : String) (cfg : Model.GeneratorConfig),
        cfg.temperature.isSome = true → OpenAIResponse.isReasoningModel m = true →
        (cfg.ignoreInvalidGeneratorOptions = false →
            OpenAIResponse.normalizeGeneratorOptionsForModel m cfg =
              .error ("temperature is not supported for reasoning model \"" ++ m ++ "\"")) ∧
        (cfg.ignoreInvalidGeneratorOptions = true →
            OpenAIResponse.normalizeGeneratorOptionsForModel m cfg =
              .ok { cfg with temperature := none })) ∧
    (∀ (m : String) (cfg : Model.GeneratorConfig),
        cfg.reasoningLevel.isSome = true → OpenAIResponse.isReasoningModel m = false →
        (cfg.ignoreInvalidGeneratorOptions = false →
            OpenAIResponse.normalizeGeneratorOptionsForModel m cfg =
              .error ("reasoning effort is not supported for non-reasoning model \"" ++
                m ++ "\"")) ∧
        (cfg.ignoreInvalidGeneratorOptions = true →
            OpenAIResponse.normalizeGeneratorOptionsForModel m cfg =
              .ok { cfg with reasoningLevel := none })) := by
  refine ⟨fun m => ?_, fun m cfg htemp hre => ⟨fun hig => ?_, fun hig => ?_⟩,
    fun m cfg hrl hre => ⟨fun hig => ?_, fun hig => ?_⟩⟩
  · by_cases h : goToLower (goTrimSpace m) = ""
    · simp only [OpenAIResponse.isReasoningModel, h]
      decide
    · simp only [OpenAIResponse.isReasoningModel, if_neg h]
  · simp [OpenAIResponse.normalizeGeneratorOptionsForModel, htemp, hre, hig]
  · simp [OpenAIResponse.normalizeGeneratorOptionsForModel, htemp, hre, hig]
  · simp [OpenAIResponse.normalizeGeneratorOptionsForModel, hrl, hre, hig]
  · simp [OpenAIResponse.normalizeGeneratorOptionsForModel, hrl, hre, hig]

/-- Witness for C4 at concrete inputs: `gpt-5-mini` is reasoning-capable, a
    set temperature errors in strict mode and is dropped in ignore mode;
    `llama3.1` is sampling-capable and a set reasoning level errors. -/
theorem C4_option_normalization_witness :
    OpenAIResponse.isReasoningModel "gpt-5-mini" =
        (goHasPre (goToLower (goTrimSpace "gpt-5-mini")) "o1" ||
         goHasPre (goToLower (goTrimSpace "gpt-5-mini")) "o3" ||
         goHasPre (goToLower (goTrimSpace "gpt-5-mini")) "o4" ||
         goHasPre (goToLower (goTrimSpace "gpt-5-mini")) "gpt-5") ∧
    OpenAIResponse.normalizeGeneratorOptionsForModel "gpt-5-mini"
        { temperature := some 1 } =
      .error ("temperature is not supported for reasoning model \"" ++ "gpt-5-mini" ++ "\"") ∧
    OpenAIResponse.normalizeGeneratorOptionsForModel "gpt-5-mini"
        { temperature := some 1, ignoreInvalidGeneratorOptions := true } =
      .ok { temperature := none, ignoreInvalidGeneratorOptions := true } ∧
    OpenAIResponse.normalizeGeneratorOptionsForModel "llama3.1"
        { reasoningLevel := some "high" } =
      .error ("reasoning effort is not supported for non-reasoning model \"" ++
        "llama3.1" ++ "\"") := by
  refine ⟨C4_option_normalization.1 "gpt-5-mini", ?_, ?_, ?_⟩
  · exact (C4_option_normalization.2.1 "gpt-5-mini" { temperature := some 1 }
      rfl (by decide)).1 rfl
  · exact (C4_option_normalization.2.1 "gpt-5-mini"
      { temperature := some 1, ignoreInvalidGeneratorOptions := true }
      rfl (by decide)).2 rfl
  · exact (C4_option_normalization.2.2 "llama3.1" { reasoningLevel := some "high" }
      rfl (by decide)).1 rfl

/-! ## pkg/llms/ollama: message assembly (`content.go`) -/

namespace Ollama

/-- Go `any`-typed tool-call arguments as seen by `normalizeToolArguments`:
    nil, a string, raw JSON bytes, or a decoded native value. -/
inductive ToolArgs where
  | nil
  | str (s : String)
  | raw (s : String)
  | val (v : JVal)

/-- `ollamaToolFunctionCall`. -/
structure OllamaToolFunctionCall where
  name : String := ""
  arguments : ToolArgs := .nil

/-- `ollamaToolCall`. -/
structure OllamaToolCall where
  id : String := ""
  type : String := ""
  function : OllamaToolFunctionCall := {}

/-- `ollamaChatMessage`. -/
structure OllamaChatMessage where
  role : String := ""
  content : String := ""
  toolCalls : List OllamaToolCall := []
  name : String := ""
  toolName : String := ""
  toolCallID : String := ""

/-- Role mapping of `buildMessagesWithContext`'s switch statement. -/
def contextRole (messageType : Model.ContextMessageType) : String :=
  if messageType = Model.ContextMessageTypeSystem then "system"
  else if messageType = Model.ContextMessageTypeAssistant then "assistant"
  else "user"

/-- One step of `buildMessagesWithContext`'s loop body: skip nil entries and
    blank content, otherwise emit the role-mapped message. -/
def keptContextMessage (contextItem : Option Model.PromptContext) : Option OllamaChatMessage :=
  match contextItem with
  | none => none
  | some ci =>
      let content := goTrimSpace ci.content
      if content = "" then none
      else some { role := contextRole ci.messageType, content := content }

/-- `buildMessagesWithContext` from `ollama/content.go`: filtered context
    entries in order, then the primary prompt as a user message; the `Nat` is
    `contextCount`.  (The Go error return is always nil.) -/
def buildMessagesWithContext (prompt : String) (contexts : List (Option Model.PromptContext)) :
    List OllamaChatMessage × Nat :=
  let step := contexts.foldl
    (fun (acc : List OllamaChatMessage × Nat) contextItem =>
      match keptContextMessage contextItem with
      | none => acc
      | some msg => (acc.1 ++ [msg], acc.2 + 1))
    ([], 0)
  (step.1 ++ [{ role := "user", content := prompt }], step.2)

theorem buildMessagesWithContext_fold (contexts : List (Option Model.PromptContext))
    (acc : List OllamaChatMessage) (n : Nat) :
    contexts.foldl
      (fun (acc : List OllamaChatMessage × Nat) contextItem =>
        match keptContextMessage contextItem with
        | none => acc
        | some msg => (acc.1 ++ [msg], acc.2 + 1))
      (acc, n) =
    (acc ++ contexts.filterMap keptContextMessage,
      n + (contexts.filterMap keptContextMessage).length) := by
  induction contexts generalizing acc n with
  | nil => simp
  | cons c cs ih =>
      cases h : keptContextMessage c with
      | none => simp [List.foldl_cons, h, ih]
      | some msg => simp [List.foldl_cons, h, ih]; omega

end Ollama

/-! ## pkg/llms/openai_response: input assembly (`openai_response.go`) -/

namespace OpenAIResponse

/-- `responses.ResponseFunctionToolCall` (fields the flow reads). -/
structure OAFunctionCall where
  callID : String := ""
  name : String := ""
  arguments : String := ""

/-- `responses.ResponseOutputItemUnion` (fields the flow reads): the variant
    tag and, when the tag is "function_call", the call payload. -/
structure OAOutputItem where
  type : String := ""
  asFunctionCall : OAFunctionCall := {}

/-- `responses.ResponseInputItemUnionParam` variants the flow builds:
    role-tagged messages, converted prior-output items, and function-call
    outputs. -/
inductive OAInputItem where
  | message (content : String) (role : String)
  | fromOutput (item : OAOutputItem)
  | functionCallOutput (callID : String) (output : String)

/-- `mapContextMessageRole` from `openai_response.go` (role constants are the
    wire strings of `responses.EasyInputMessageRole`). -/
def mapContextMessageRole (messageType : Model.ContextMessageType) : String :=
  if messageType = Model.ContextMessageTypeSystem then "system"
  else if messageType = Model.ContextMessageTypeAssistant then "assistant"
  else if messageType = Model.ContextMessageTypeHuman then "user"
  else "user"

/-- One step of `buildInputItemsWithContext`'s loop body. -/
def keptContextItem (contextItem : Option Model.PromptContext) : Option OAInputItem :=
  match contextItem with
  | none => none
  | some ci =>
      let content := goTrimSpace ci.content
      if content = "" then none
      else some (.message content (mapContextMessageRole ci.messageType))

/-- `buildInputItemsWithContext` from `openai_response.go`; the `Nat` is
    `contextCount` (the Go error return is always nil). -/
def buildInputItemsWithContext (prompt : String)
    (contexts : List (Option Model.PromptContext)) : List OAInputItem × Nat :=
  let step := contexts.foldl
    (fun (acc : List OAInputItem × Nat) contextItem =>
      match keptContextItem contextItem with
      | none => acc
      | some item => (acc.1 ++ [item], acc.2 + 1))
    ([], 0)
  (step.1 ++ [.message prompt "user"], step.2)

theorem buildInputItemsWithContext_fold (contexts : List (Option Model.PromptContext))
    (acc : List OAInputItem) (n : Nat) :
    contexts.foldl
      (fun (acc : List OAInputItem × Nat) contextItem =>
        match keptContextItem contextItem with
        | none => acc
        | some item => (acc.1 ++ [item], acc.2 + 1))
      (acc, n) =
    (acc ++ contexts.filterMap keptContextItem,
      n + (contexts.filterMap keptContextItem).length) := by
  induction contexts generalizing acc n with
  | nil => simp
  | cons c cs ih =>
      cases h : keptContextItem c with
      | none => simp [List.foldl_cons, h, ih]
      | some item => simp [List.foldl_cons, h, ih]; omega

end OpenAIResponse

/-- C7: the composed provider input is exactly the non-blank context entries
    (static first, then provider-produced entries, in order), each with its
    role-mapped message, followed by one final user-role message holding the
    generator's primary prompt — for both the ollama and the openai_response
    assembly. -/
theorem C7_context_composition
    (prompt : String)
    (staticEntries provided : List (Option Model.PromptContext)) :
    Ollama.buildMessagesWithContext prompt (staticEntries ++ provided) =
      ((staticEntries ++ provided).filterMap Ollama.keptContextMessage ++
        [{ role := "user", content := prompt }],
       ((staticEntries ++ provided).filterMap Ollama.keptContextMessage).length) ∧
    OpenAIResponse.buildInputItemsWithContext prompt (staticEntries ++ provided) =
      ((staticEntries ++ provided).filterMap OpenAIResponse.keptContextItem ++
        [.message prompt "user"],
       ((staticEntries ++ provided).filterMap OpenAIResponse.keptContextItem).length) := by
  constructor
  · unfold Ollama.buildMessagesWithContext
    rw [Ollama.buildMessagesWithContext_fold]
    simp
  · unfold OpenAIResponse.buildInputItemsWithContext
    rw [OpenAIResponse.buildInputItemsWithContext_fold]
    simp

/-! ## Tool handlers and the ollama tool-orchestration loop
(`ollama/content.go`, `runChatFlow` and helpers) -/

/-- A `toolHandler`: raw JSON argument bytes to a JSON-serializable result or
    an error (the cancellation context carries no information in the model). -/
abbrev ToolHandler := String → Except GoError JVal

/-- The `map[string]toolHandler` built by each provider's `mapTools`. -/
abbrev Handlers := String → Option ToolHandler

/-- `model.Tool` as consumed by the flows (the handler itself lives in the
    separate `Handlers` map, exactly as the Go flows receive it). -/
structure MTool where
  name : String := ""
  description : String := ""
  inputSchema : Option JVal := none

/-- The default `{type: object, properties: {}}` input schema. -/
def defaultToolSchema : JVal :=
  .obj [("type", .str "object"), ("properties", .obj [])]

namespace Ollama

def maxToolRounds : Nat := 12

/-- `flowUsageTotals` from `ollama/content.go`. -/
structure FlowUsageTotals where
  apiCalls : Nat := 0
  toolRounds : Nat := 0
  inputTokens : Int := 0
  outputTokens : Int := 0
  totalTokens : Int := 0
deriving DecidableEq

/-- `ollamaToolDef` (flattened: `Function` fields inlined). -/
structure OllamaToolDef where
  type : String
  name : String
  description : String
  parameters : JVal

/-- `ollamaChatOptions`. -/
structure OllamaChatOptions where
  temperature : Option ℚ := none
  numPredict : Option Int := none

/-- `ollamaChatRequest` (Stream is always false in the flow). -/
structure OllamaChatRequest where
  model : String
  messages : List OllamaChatMessage
  stream : Bool
  tools : List OllamaToolDef
  options : Option OllamaChatOptions

/-- `ollamaChatResponse` (fields the flow reads; transport and API errors are
    folded into the `Except` of the `chat` boundary function). -/
structure OllamaChatResponse where
  message : OllamaChatMessage := {}
  promptEvalCount : Int := 0
  evalCount : Int := 0

/-- `buildOllamaToolDefs`. -/
def buildOllamaToolDefs (tools : List MTool) : List OllamaToolDef :=
  if tools.isEmpty then []
  else
    tools.map fun tool =>
      { type := "function", name := tool.name, description := tool.description,
        parameters := tool.inputSchema.getD defaultToolSchema }

/-- `buildOllamaChatOptions`. -/
def buildOllamaChatOptions (cfg : Model.GeneratorConfig) : Option OllamaChatOptions :=
  if cfg.temperature.isNone && cfg.maxTokens.isNone then none
  else some { temperature := cfg.temperature, numPredict := cfg.maxTokens }

/-- `resolveToolHandler`: exact-name lookup first, then with the common
    prefixes `tool.`, `function.`, `functions.` stripped. -/
def resolveToolHandler (name : String) (handlers : Handlers) :
    Except GoError (String × ToolHandler) :=
  let candidate := goTrimSpace name
  if candidate = "" then .error "tool call name is required"
  else
    match handlers candidate with
    | some handler => .ok (candidate, handler)
    | none =>
        let tryStripped : String → Option (String × ToolHandler) := fun pre =>
          let trimmed := goCutPre candidate pre
          if trimmed = candidate then none
          else
            match handlers trimmed with
            | some handler => some (trimmed, handler)
            | none => none
        match tryStripped "tool." with
        | some r => .ok r
        | none =>
            match tryStripped "function." with
            | some r => .ok r
            | none =>
                match tryStripped "functions." with
                | some r => .ok r
                | none =>
                    .error ("no tool handler configured for function \"" ++ candidate ++ "\"")

/-- `normalizeToolArguments`: canonical JSON bytes from a nil, string,
    raw-bytes, or native-value argument payload. -/
def normalizeToolArguments : ToolArgs → Except GoError String
  | .nil => .ok "\x7b\x7d"
  | .str value =>
      let trimmed := goTrimSpace value
      if trimmed = "" then .ok "\x7b\x7d"
      else if jsonValid trimmed then .ok trimmed
      else .error ("tool arguments are not valid JSON: \"" ++ trimmed ++ "\"")
  | .raw value =>
      let trimmed := goTrimSpace value
      if trimmed = "" then .ok "\x7b\x7d"
      else if jsonValid trimmed then .ok trimmed
      else .error "tool arguments are not valid JSON"
  | .val v => .ok (jsonSerialize v)

/-- The per-round tool-call execution loop body of `runChatFlow`: resolve the
    handler, normalize the arguments, run the handler, and encode either its
    result or — when it errors — the `{"error": <message>}` payload as the
    tool-output message for that call. -/
def processToolCalls (handlers : Handlers) :
    List OllamaToolCall → Except GoError (List OllamaChatMessage)
  | [] => .ok []
  | toolCall :: rest =>
      match resolveToolHandler toolCall.function.name handlers with
      | .error e => .error e
      | .ok (handlerName, handler) =>
          match normalizeToolArguments toolCall.function.arguments with
          | .error e => .error e
          | .ok argsBytes =>
              let resultPayload : JVal :=
                match handler argsBytes with
                | .ok result => result
                | .error callErr => .obj [("error", .str callErr)]
              let resultBytes := jsonSerialize resultPayload
              match processToolCalls handlers rest with
              | .error e => .error e
              | .ok restMsgs =>
                  .ok ({ role := "tool", content := resultBytes, name := handlerName,
                         toolName := handlerName, toolCallID := toolCall.id } :: restMsgs)

/-- Usage accumulation lines of `runChatFlow`'s round body. -/
def addResponseUsage (totals : FlowUsageTotals) (response : OllamaChatResponse) :
    FlowUsageTotals :=
  { totals with
    apiCalls := totals.apiCalls + 1,
    inputTokens := totals.inputTokens + response.promptEvalCount,
    outputTokens := totals.outputTokens + response.evalCount,
    totalTokens := totals.totalTokens + response.promptEvalCount + response.evalCount }

/-- Assistant-message fixup of `runChatFlow`'s round body: default a blank
    role to "assistant" and trim the content. -/
def fixAssistantMessage (m : OllamaChatMessage) : OllamaChatMessage :=
  let m' := if goTrimSpace m.role = "" then { m with role := "assistant" } else m
  { m' with content := goTrimSpace m'.content }

/-- The round loop of `runChatFlow`, structured on the remaining rounds
    (`remaining = maxToolRounds - round`); `chat` is the provider boundary
    (`c.chat` in Go). -/
def runChatFlowLoop (chat : OllamaChatRequest → Except GoError OllamaChatResponse)
    (modelName : String) (toolDefs : List OllamaToolDef) (options : Option OllamaChatOptions)
    (tools : List MTool) (handlers : Handlers) :
    Nat → Nat → List OllamaChatMessage → FlowUsageTotals →
    FlowUsageTotals × Except GoError String
  | 0, _, _, totals =>
      (totals, .error ("exceeded tool call loop limit (" ++ toString maxToolRounds ++ ")"))
  | remaining + 1, round, history, totals =>
      match chat { model := modelName, messages := history, stream := false,
                   tools := toolDefs, options := options } with
      | .error e => (totals, .error e)
      | .ok response =>
          let totals := addResponseUsage totals response
          let assistantMessage := fixAssistantMessage response.message
          let toolCalls := response.message.toolCalls
          if tools.isEmpty then (totals, .ok assistantMessage.content)
          else if toolCalls.isEmpty then (totals, .ok assistantMessage.content)
          else
            let totals := { totals with toolRounds := round + 1 }
            match processToolCalls handlers toolCalls with
            | .error e => (totals, .error e)
            | .ok outMsgs =>
                runChatFlowLoop chat modelName toolDefs options tools handlers
                  remaining (round + 1) (history ++ [assistantMessage] ++ outMsgs) totals

/-- `runChatFlow` from `ollama/content.go`: seed the history from the initial
    (role, content) messages and run up to `maxToolRounds` rounds. -/
def runChatFlow (chat : OllamaChatRequest → Except GoError OllamaChatResponse)
    (modelName : String) (cfg : Model.GeneratorConfig)
    (initialMessages : List (String × String)) (tools : List MTool) (handlers : Handlers) :
    FlowUsageTotals × Except GoError String :=
  let history := initialMessages.map fun m =>
    ({ role := m.1, content := m.2 } : OllamaChatMessage)
  runChatFlowLoop chat modelName (buildOllamaToolDefs tools) (buildOllamaChatOptions cfg)
    tools handlers maxToolRounds 0 history {}

/-- `applyOllamaMetadata`. -/
def applyOllamaMetadata (meta : Model.GenerationMetadata) (totals : FlowUsageTotals) :
    Model.GenerationMetadata :=
  let meta := Model.metaSet meta Model.MetadataKeyAPICalls (toString totals.apiCalls)
  let meta := Model.metaSet meta Model.MetadataKeyToolRounds (toString totals.toolRounds)
  let meta := Model.metaSet meta Model.MetadataKeyInputTokens (toString totals.inputTokens)
  let meta := Model.metaSet meta Model.MetadataKeyOutputTokens (toString totals.outputTokens)
  Model.metaSet meta Model.MetadataKeyTotalTokens (toString totals.totalTokens)

end Ollama

/-! ## pkg/llms/openai_response: the responses tool-orchestration loop
(`runResponsesFlow` and helpers) -/

namespace OpenAIResponse

def maxToolRounds : Nat := 12

/-- `flowUsageTotals` from `openai_response.go`. -/
structure FlowUsageTotals where
  apiCalls : Nat := 0
  toolRounds : Nat := 0
  inputTokens : Int := 0
  outputTokens : Int := 0
  totalTokens : Int := 0
  cachedInputTokens : Int := 0
  reasoningTokens : Int := 0
deriving DecidableEq

/-- `responses.ResponseUsage` fields the flow reads. -/
structure OAUsage where
  inputTokens : Int := 0
  outputTokens : Int := 0
  totalTokens : Int := 0
  cachedTokens : Int := 0
  reasoningTokens : Int := 0

/-- `responses.Response` fields the flow reads (a nil response at the SDK
    boundary is folded into the `Except` error of `respond`). -/
structure OAResponse where
  output : List OAOutputItem := []
  usage : OAUsage := {}
  id : String := ""
  status : String := ""

/-- `responses.ResponseNewParamsInputUnion`. -/
inductive OAInput where
  | items (xs : List OAInputItem)
  | ofString (s : String)

/-- `responses.ResponseNewParams` fields the flow reads and forwards. -/
structure OAParams where
  model : String := ""
  input : OAInput := .items []
  temperature : Option ℚ := none
  maxOutputTokens : Option Int := none
  reasoningEffort : Option String := none
  includeEncryptedReasoning : Bool := false
  text : Option JVal := none
  toolNames : List String := []

/-- `accumulateFlowUsage`. -/
def accumulateFlowUsage (totals : FlowUsageTotals) (response : OAResponse) : FlowUsageTotals :=
  { totals with
    apiCalls := totals.apiCalls + 1,
    inputTokens := totals.inputTokens + response.usage.inputTokens,
    outputTokens := totals.outputTokens + response.usage.outputTokens,
    totalTokens := totals.totalTokens + response.usage.totalTokens,
    cachedInputTokens := totals.cachedInputTokens + response.usage.cachedTokens,
    reasoningTokens := totals.reasoningTokens + response.usage.reasoningTokens }

/-- `extractFunctionCalls`: output items tagged "function_call" whose call id
    and name are both non-empty. -/
def extractFunctionCalls (response : OAResponse) : List OAFunctionCall :=
  response.output.filterMap fun item =>
    if item.type ≠ "function_call" then none
    else
      let call := item.asFunctionCall
      if call.callID = "" || call.name = "" then none
      else some call

/-- `responseOutputToInputItems` (the JSON round-trip through
    `ResponseInputItemUnion` is modelled as the lossless re-tagging it
    performs; its unmarshal error path is not exercised by any claim). -/
def responseOutputToInputItems (output : List OAOutputItem) : List OAInputItem :=
  output.map OAInputItem.fromOutput

/-- `seedInputHistory`. -/
def seedInputHistory : OAInput → Except GoError (List OAInputItem)
  | .items xs => if xs.isEmpty then .error "response input is empty" else .ok xs
  | .ofString s => .ok [.message s "user"]

/-- `buildStatelessFollowupParams`. -/
def buildStatelessFollowupParams (initial : OAParams) (history : List OAInputItem)
    (textCfg : Option JVal) : OAParams :=
  { model := initial.model,
    temperature := initial.temperature,
    maxOutputTokens := initial.maxOutputTokens,
    reasoningEffort := initial.reasoningEffort,
    toolNames := initial.toolNames,
    includeEncryptedReasoning := initial.includeEncryptedReasoning,
    input := .items history,
    text := textCfg }

/-- The per-round tool-call execution loop body of `runResponsesFlow`: look
    the handler up by exact name; a missing handler or a handler error aborts
    with that error; otherwise the marshalled result becomes the
    function-call-output item. -/
def processFunctionCalls (handlers : Handlers) :
    List OAFunctionCall → Except GoError (List OAInputItem)
  | [] => .ok []
  | call :: rest =>
      match handlers call.name with
      | none => .error ("no tool handler configured for function \"" ++ call.name ++ "\"")
      | some handler =>
          match handler call.arguments with
          | .error callErr => .error callErr
          | .ok result =>
              let outputJSON := jsonSerialize result
              match processFunctionCalls handlers rest with
              | .error e => .error e
              | .ok restItems =>
                  .ok (.functionCallOutput call.callID outputJSON :: restItems)

/-- The round loop of `runResponsesFlow`, structured on the remaining rounds
    (`remaining = maxToolRounds - round`); `respond` is the provider boundary
    (`c.apiClient.Responses.New` in Go). -/
def runResponsesLoop (respond : OAParams → Except GoError OAResponse)
    (handlers : Handlers) (initialParams : OAParams) (textCfg : Option JVal) :
    Nat → Nat → List OAInputItem → OAResponse → FlowUsageTotals →
    FlowUsageTotals × Except GoError OAResponse
  | 0, _, _, _, totals =>
      (totals, .error ("exceeded tool call loop limit (" ++ toString maxToolRounds ++ ")"))
  | remaining + 1, round, history, response, totals =>
      let history := history ++ responseOutputToInputItems response.output
      let calls := extractFunctionCalls response
      if calls.isEmpty then (totals, .ok response)
      else
        let totals := { totals with toolRounds := round + 1 }
        match processFunctionCalls handlers calls with
        | .error e => (totals, .error e)
        | .ok outputItems =>
            let history := history ++ outputItems
            let nextParams := buildStatelessFollowupParams initialParams history textCfg
            match respond nextParams with
            | .error e => (totals, .error e)
            | .ok response' =>
                runResponsesLoop respond handlers initialParams textCfg
                  remaining (round + 1) history response' (accumulateFlowUsage totals response')

/-- `runResponsesFlow` from `openai_response.go`, taking the already-built
    initial params and handler map (`buildInitialParams` is covered by the
    option-normalization embedding above). -/
def runResponsesFlow (respond : OAParams → Except GoError OAResponse)
    (initialParams : OAParams) (handlers : Handlers) (textCfg : Option JVal) :
    FlowUsageTotals × Except GoError OAResponse :=
  match seedInputHistory initialParams.input with
  | .error e => ({}, .error e)
  | .ok history =>
      match respond initialParams with
      | .error e => ({}, .error e)
      | .ok response =>
          runResponsesLoop respond handlers initialParams textCfg
            maxToolRounds 0 history response (accumulateFlowUsage {} response)

/-- `applyOpenAIResponseMetadata` (usage-totals part; response id and status
    writes are conditional on non-empty fields). -/
def applyOpenAIResponseMetadata (meta : Model.GenerationMetadata)
    (response : OAResponse) (totals : FlowUsageTotals) : Model.GenerationMetadata :=
  let meta := Model.metaSet meta Model.MetadataKeyAPICalls (toString totals.apiCalls)
  let meta := Model.metaSet meta Model.MetadataKeyToolRounds (toString totals.toolRounds)
  let meta := Model.metaSet meta Model.MetadataKeyInputTokens (toString totals.inputTokens)
  let meta := Model.metaSet meta Model.MetadataKeyOutputTokens (toString totals.outputTokens)
  let meta := Model.metaSet meta Model.MetadataKeyTotalTokens (toString totals.totalTokens)
  let meta := Model.metaSet meta Model.MetadataKeyCachedInputTokens
    (toString totals.cachedInputTokens)
  let meta := Model.metaSet meta Model.MetadataKeyReasoningTokens
    (toString totals.reasoningTokens)
  let meta := if response.id ≠ "" then
    Model.metaSet meta Model.MetadataKeyResponseID response.id else meta
  if response.status ≠ "" then
    Model.metaSet meta Model.MetadataKeyResponseStatus response.status else meta

end OpenAIResponse

namespace Ollama

section LoopLemmas

variable (chat : OllamaChatRequest → Except GoError OllamaChatResponse)
  (modelName : String) (toolDefs : List OllamaToolDef) (options : Option OllamaChatOptions)
  (tools : List MTool) (handlers : Handlers)

/-- Loop invariant: entering a round with `apiCalls = toolRounds = round`,
    any successful exit satisfies `apiCalls = toolRounds + 1`. -/
theorem runChatFlowLoop_ok_api_calls (remaining : Nat) :
    ∀ (round : Nat) (history : List OllamaChatMessage) (totals : FlowUsageTotals),
      totals.apiCalls = round → totals.toolRounds = round →
      ∀ (tf : FlowUsageTotals) (text : String),
        runChatFlowLoop chat modelName toolDefs options tools handlers
            remaining round history totals = (tf, .ok text) →
        tf.apiCalls = tf.toolRounds + 1 := by
  induction remaining with
  | zero =>
      intro round history totals hapi htr tf text hrun
      simp [runChatFlowLoop] at hrun
  | succ remaining ih =>
      intro round history totals hapi htr tf text hrun
      simp only [runChatFlowLoop] at hrun
      split at hrun
      · simp at hrun
      · split at hrun
        · simp only [Prod.mk.injEq] at hrun
          obtain ⟨h1, -⟩ := hrun
          subst h1
          simp [addResponseUsage, hapi, htr]
        · split at hrun
          · simp only [Prod.mk.injEq] at hrun
            obtain ⟨h1, -⟩ := hrun
            subst h1
            simp [addResponseUsage, hapi, htr]
          · split at hrun
            · simp at hrun
            · exact ih (round + 1) _ _ (by simp [addResponseUsage, hapi]) (by simp) tf text hrun

/-- Loop bound: the recorded tool-round count never exceeds
    `round + remaining`. -/
theorem runChatFlowLoop_tool_rounds_le (remaining : Nat) :
    ∀ (round : Nat) (history : List OllamaChatMessage) (totals : FlowUsageTotals),
      totals.toolRounds ≤ round →
      (runChatFlowLoop chat modelName toolDefs options tools handlers
          remaining round history totals).1.toolRounds ≤ round + remaining := by
  induction remaining with
  | zero =>
      intro round history totals htr
      simpa [runChatFlowLoop] using htr
  | succ remaining ih =>
      intro round history totals htr
      simp only [runChatFlowLoop]
      split
      · simpa [addResponseUsage] using Nat.le_add_right_of_le htr
      · split
        · simpa [addResponseUsage] using Nat.le_add_right_of_le htr
        · split
          · simpa [addResponseUsage] using Nat.le_add_right_of_le htr
          · split
            · simp [addResponseUsage]
            · calc (runChatFlowLoop chat modelName toolDefs options tools handlers
                      remaining (round + 1) _ _).1.toolRounds
                  ≤ (round + 1) + remaining := ih (round + 1) _ _ (by simp)
                _ = round + (remaining + 1) := by omega

/-- Limit run: when the provider answers every request with a response whose
    tool calls are non-empty and executable, the loop spends all remaining
    rounds and exits with the loop-limit error, having counted one tool round
    and one API call per round. -/
theorem runChatFlowLoop_limit
    (htools : tools.isEmpty = false)
    (hchat : ∀ req : OllamaChatRequest, ∃ resp : OllamaChatResponse,
        chat req = .ok resp ∧ resp.message.toolCalls.isEmpty = false ∧
        ∃ outs, processToolCalls handlers resp.message.toolCalls = .ok outs)
    (remaining : Nat) :
    ∀ (round : Nat) (history : List OllamaChatMessage) (totals : FlowUsageTotals),
      totals.toolRounds = round →
      ∃ tf : FlowUsageTotals,
        runChatFlowLoop chat modelName toolDefs options tools handlers
            remaining round history totals =
          (tf, .error ("exceeded tool call loop limit (" ++ toString maxToolRounds ++ ")")) ∧
        tf.toolRounds = round + remaining ∧
        tf.apiCalls = totals.apiCalls + remaining := by
  induction remaining with
  | zero =>
      intro round history totals htr
      exact ⟨totals, by simp [runChatFlowLoop], by omega, by omega⟩
  | succ remaining ih =>
      intro round history totals htr
      obtain ⟨resp, hresp, hcalls, outs, houts⟩ :=
        hchat { model := modelName, messages := history, stream := false,
                tools := toolDefs, options := options }
      obtain ⟨tf, hrun, htf1, htf2⟩ := ih (round + 1)
        (history ++ [fixAssistantMessage resp.message] ++ outs)
        { addResponseUsage totals resp with toolRounds := round + 1 } (by simp)
      refine ⟨tf, ?_, by omega, by simp [addResponseUsage] at htf2; omega⟩
      simp only [runChatFlowLoop, hresp, htools, hcalls, houts]
      simpa using hrun

end LoopLemmas

end Ollama

namespace OpenAIResponse

section LoopLemmas

variable (respond : OAParams → Except GoError OAResponse) (handlers : Handlers)
  (initialParams : OAParams) (textCfg : Option JVal)

/-- Loop invariant: entering a round with `apiCalls = round + 1` and
    `toolRounds = round`, any successful exit satisfies
    `apiCalls = toolRounds + 1`. -/
theorem runResponsesLoop_ok_api_calls (remaining : Nat) :
    ∀ (round : Nat) (history : List OAInputItem) (response : OAResponse)
      (totals : FlowUsageTotals),
      totals.apiCalls = round + 1 → totals.toolRounds = round →
      ∀ (tf : FlowUsageTotals) (final : OAResponse),
        runResponsesLoop respond handlers initialParams textCfg
            remaining round history response totals = (tf, .ok final) →
        tf.apiCalls = tf.toolRounds + 1 := by
  induction remaining with
  | zero =>
      intro round history response totals hapi htr tf final hrun
      simp [runResponsesLoop] at hrun
  | succ remaining ih =>
      intro round history response totals hapi htr tf final hrun
      simp only [runResponsesLoop] at hrun
      split at hrun
      · simp only [Prod.mk.injEq] at hrun
        obtain ⟨h1, -⟩ := hrun
        subst h1
        omega
      · split at hrun
        · simp at hrun
        · split at hrun
          · simp at hrun
          · exact ih (round + 1) _ _ _ (by simp [accumulateFlowUsage, hapi])
              (by simp [accumulateFlowUsage]) tf final hrun

/-- Loop bound: the recorded tool-round count never exceeds
    `round + remaining`. -/
theorem runResponsesLoop_tool_rounds_le (remaining : Nat) :
    ∀ (round : Nat) (history : List OAInputItem) (response : OAResponse)
      (totals : FlowUsageTotals),
      totals.toolRounds ≤ round →
      (runResponsesLoop respond handlers initialParams textCfg
          remaining round history response totals).1.toolRounds ≤ round + remaining := by
  induction remaining with
  | zero =>
      intro round history response totals htr
      simpa [runResponsesLoop] using htr
  | succ remaining ih =>
      intro round history response totals htr
      simp only [runResponsesLoop]
      split
      · simpa using Nat.le_add_right_of_le htr
      · split
        · simp
        · split
          · simp
          · calc (runResponsesLoop respond handlers initialParams textCfg
                    remaining (round + 1) _ _ _).1.toolRounds
                ≤ (round + 1) + remaining := ih (round + 1) _ _ _ (by simp [accumulateFlowUsage])
              _ = round + (remaining + 1) := by omega

/-- Limit run: when the current response and every follow-up response carry
    executable tool calls, the loop spends all remaining rounds and exits
    with the loop-limit error, counting one tool round and one resubmission
    per round. -/
theorem runResponsesLoop_limit
    (hrespond : ∀ params : OAParams, ∃ r : OAResponse,
        respond params = .ok r ∧ (extractFunctionCalls r).isEmpty = false ∧
        ∃ outs, processFunctionCalls handlers (extractFunctionCalls r) = .ok outs)
    (remaining : Nat) :
    ∀ (round : Nat) (history : List OAInputItem) (response : OAResponse)
      (totals : FlowUsageTotals),
      (extractFunctionCalls response).isEmpty = false →
      (∃ outs, processFunctionCalls handlers (extractFunctionCalls response) = .ok outs) →
      totals.toolRounds = round →
      ∃ tf : FlowUsageTotals,
        runResponsesLoop respond handlers initialParams textCfg
            remaining round history response totals =
          (tf, .error ("exceeded tool call loop limit (" ++ toString maxToolRounds ++ ")")) ∧
        tf.toolRounds = round + remaining ∧
        tf.apiCalls = totals.apiCalls + remaining := by
  induction remaining with
  | zero =>
      intro round history response totals hcalls houts htr
      exact ⟨totals, by simp [runResponsesLoop], by omega, by omega⟩
  | succ remaining ih =>
      intro round history response totals hcalls houts htr
      obtain ⟨outs, houts⟩ := houts
      obtain ⟨r', hr', hcalls', houts'⟩ := hrespond
        (buildStatelessFollowupParams initialParams
          ((history ++ responseOutputToInputItems response.output) ++ outs) textCfg)
      obtain ⟨tf, hrun, htf1, htf2⟩ := ih (round + 1)
        ((history ++ responseOutputToInputItems response.output) ++ outs) r'
        (accumulateFlowUsage { totals with toolRounds := round + 1 } r')
        hcalls' houts' (by simp [accumulateFlowUsage])
      refine ⟨tf, ?_, by omega, by simp [accumulateFlowUsage] at htf2; omega⟩
      simp only [runResponsesLoop, hcalls, houts, hr']
      simpa using hrun

end LoopLemmas

end OpenAIResponse

/-! ## pkg/llms/gemini: per-round tool-call execution (`content.go`,
`runGenerateFlow` lines 403-428) -/

namespace Gemini

/-- `genai.FunctionCall` fields the flow reads. -/
structure GFunctionCall where
  id : String := ""
  name : String := ""
  args : List (String × JVal) := []

/-- `genai.Content` items the flow appends to its history. -/
inductive GContent where
  | text (s : String) (role : String)
  | functionCall (name : String) (args : List (String × JVal)) (role : String)
  | functionResponse (name : String) (response : List (String × JVal)) (role : String)

/-- The per-round tool-call execution loop body of `runGenerateFlow`: look
    the handler up by exact name; a missing handler or a handler error aborts
    with that error; otherwise the call and its `{"output": result}` response
    are appended to the history. -/
def processFunctionCalls (handlers : Handlers) :
    List GFunctionCall → Except GoError (List GContent)
  | [] => .ok []
  | call :: rest =>
      match handlers call.name with
      | none => .error ("no tool handler configured for function \"" ++ call.name ++ "\"")
      | some handler =>
          let argsBytes := jsonSerialize (.obj call.args)
          match handler argsBytes with
          | .error callErr => .error callErr
          | .ok result =>
              let toolOutput :=
                if goTrimSpace call.id = "" then [("output", result)]
                else [("output", result), ("id", JVal.str call.id)]
              match processFunctionCalls handlers rest with
              | .error e => .error e
              | .ok restContents =>
                  .ok (.functionCall call.name call.args "model" ::
                       .functionResponse call.name toolOutput "user" :: restContents)

end Gemini

/-! ## Metadata projections of the flow usage totals -/

namespace Ollama

theorem applyOllamaMetadata_tool_rounds (meta : Model.GenerationMetadata)
    (totals : FlowUsageTotals) :
    Model.metaGet (applyOllamaMetadata meta totals) Model.MetadataKeyToolRounds =
      some (toString totals.toolRounds) := by
  unfold applyOllamaMetadata
  rw [Model.metaGet_metaSet_other _ _ _ _ (by decide),
    Model.metaGet_metaSet_other _ _ _ _ (by decide),
    Model.metaGet_metaSet_other _ _ _ _ (by decide),
    Model.metaGet_metaSet_same]

theorem applyOllamaMetadata_api_calls (meta : Model.GenerationMetadata)
    (totals : FlowUsageTotals) :
    Model.metaGet (applyOllamaMetadata meta totals) Model.MetadataKeyAPICalls =
      some (toString totals.apiCalls) := by
  unfold applyOllamaMetadata
  rw [Model.metaGet_metaSet_other _ _ _ _ (by decide),
    Model.metaGet_metaSet_other _ _ _ _ (by decide),
    Model.metaGet_metaSet_other _ _ _ _ (by decide),
    Model.metaGet_metaSet_other _ _ _ _ (by decide),
    Model.metaGet_metaSet_same]

end Ollama

/-- C2: against a provider that answers every submission with executable tool
    calls, both embedded orchestration loops execute exactly
    `maxToolRounds = 12` tool rounds and then fail with the
    tool-loop-limit-exceeded error, their usage totals recording
    `tool_rounds = 12` (formatted "12" in the metadata); and on every run
    whatsoever the tool-round count is bounded by 12, so the loop terminates. -/
theorem C2_tool_loop_limit :
    (∀ (chat : Ollama.OllamaChatRequest → Except GoError Ollama.OllamaChatResponse)
        (modelName : String) (cfg : Model.GeneratorConfig)
        (initialMessages : List (String × String)) (tools : List MTool)
        (handlers : Handlers) (meta : Model.GenerationMetadata),
        tools.isEmpty = false →
        (∀ req, ∃ resp, chat req = .ok resp ∧
            resp.message.toolCalls.isEmpty = false ∧
            ∃ outs, Ollama.processToolCalls handlers resp.message.toolCalls = .ok outs) →
        ∃ tf, Ollama.runChatFlow chat modelName cfg initialMessages tools handlers =
            (tf, .error "exceeded tool call loop limit (12)") ∧
          tf.toolRounds = 12 ∧ tf.apiCalls = 12 ∧
          Model.metaGet (Ollama.applyOllamaMetadata meta tf) Model.MetadataKeyToolRounds =
            some "12") ∧
    (∀ (respond : OpenAIResponse.OAParams → Except GoError OpenAIResponse.OAResponse)
        (initialParams : OpenAIResponse.OAParams) (handlers : Handlers)
        (textCfg : Option JVal) (h0 : List OpenAIResponse.OAInputItem),
        OpenAIResponse.seedInputHistory initialParams.input = .ok h0 →
        (∀ params, ∃ r, respond params = .ok r ∧
            (OpenAIResponse.extractFunctionCalls r).isEmpty = false ∧
            ∃ outs, OpenAIResponse.processFunctionCalls handlers
              (OpenAIResponse.extractFunctionCalls r) = .ok outs) →
        ∃ tf, OpenAIResponse.runResponsesFlow respond initialParams handlers textCfg =
            (tf, .error "exceeded tool call loop limit (12)") ∧
          tf.toolRounds = 12 ∧ tf.apiCalls = 13 ∧ toString tf.toolRounds = "12") ∧
    (∀ chat modelName cfg initialMessages tools handlers,
        (Ollama.runChatFlow chat modelName cfg
            initialMessages tools handlers).1.toolRounds ≤ 12) ∧
    (∀ respond initialParams handlers textCfg,
        (OpenAIResponse.runResponsesFlow respond initialParams
            handlers textCfg).1.toolRounds ≤ 12) := by
  have hmsg : ("exceeded tool call loop limit (" ++ toString Ollama.maxToolRounds ++ ")") =
      "exceeded tool call loop limit (12)" := by decide
  have hmsg' : ("exceeded tool call loop limit (" ++ toString OpenAIResponse.maxToolRounds
      ++ ")") = "exceeded tool call loop limit (12)" := by decide
  refine ⟨?_, ?_, ?_, ?_⟩
  · intro chat modelName cfg initialMessages tools handlers meta htools hchat
    obtain ⟨tf, hrun, htr, hapi⟩ :=
      Ollama.runChatFlowLoop_limit chat modelName (Ollama.buildOllamaToolDefs tools)
        (Ollama.buildOllamaChatOptions cfg) tools handlers htools hchat
        Ollama.maxToolRounds 0
        (initialMessages.map fun m => ({ role := m.1, content := m.2 } : Ollama.OllamaChatMessage))
        {} rfl
    refine ⟨tf, ?_, by simpa using htr, by simpa using hapi, ?_⟩
    · rw [Ollama.runChatFlow, hrun, hmsg]
    · rw [Ollama.applyOllamaMetadata_tool_rounds]
      simp at htr
      rw [htr]
      decide
  · intro respond initialParams handlers textCfg h0 hseed hrespond
    obtain ⟨r0, hr0, hc0, houts0⟩ := hrespond initialParams
    obtain ⟨tf, hrun, htr, hapi⟩ :=
      OpenAIResponse.runResponsesLoop_limit respond handlers initialParams textCfg hrespond
        OpenAIResponse.maxToolRounds 0 h0 r0
        (OpenAIResponse.accumulateFlowUsage {} r0) hc0 houts0
        (by simp [OpenAIResponse.accumulateFlowUsage])
    refine ⟨tf, ?_, by simpa using htr, ?_, ?_⟩
    · simp only [OpenAIResponse.runResponsesFlow, hseed, hr0]
      rw [hrun, hmsg']
    · simp [OpenAIResponse.accumulateFlowUsage, OpenAIResponse.maxToolRounds] at hapi
      omega
    · simp at htr
      rw [htr]
      decide
  · intro chat modelName cfg initialMessages tools handlers
    rw [Ollama.runChatFlow]
    simpa using Ollama.runChatFlowLoop_tool_rounds_le chat modelName
      (Ollama.buildOllamaToolDefs tools) (Ollama.buildOllamaChatOptions cfg) tools handlers
      Ollama.maxToolRounds 0 _ {} (by simp)
  · intro respond initialParams handlers textCfg
    rw [OpenAIResponse.runResponsesFlow]
    split
    · simp
    · split
      · simp
      · simpa using OpenAIResponse.runResponsesLoop_tool_rounds_le respond handlers
          initialParams textCfg OpenAIResponse.maxToolRounds 0 _ _
          (OpenAIResponse.accumulateFlowUsage {} _)
          (by simp [OpenAIResponse.accumulateFlowUsage])

/-- A stub assistant message that always asks for the tool "t". -/
def stubToolCallMessage : Ollama.OllamaChatMessage :=
  { role := "assistant", content := "",
    toolCalls := [{ id := "call-1", type := "function",
                    function := { name := "t", arguments := Ollama.ToolArgs.nil } }] }

/-- A stub provider that answers every request with that tool call. -/
def stubAlwaysToolCallChat :
    Ollama.OllamaChatRequest → Except GoError Ollama.OllamaChatResponse :=
  fun _ => .ok { message := stubToolCallMessage }

/-- A stub handler map exposing the tool "t". -/
def stubHandlersT : Handlers :=
  fun n => if n = "t" then some (fun _ => .ok (.str "v")) else none

/-- Witness for C2: a stub provider that always emits one tool call drives the
    ollama flow to exactly 12 rounds and the loop-limit error. -/
theorem C2_tool_loop_limit_witness :
    ∃ tf, Ollama.runChatFlow stubAlwaysToolCallChat
        "llama3.1" {} [("user", "go")] [{ name := "t" }] stubHandlersT =
      (tf, .error "exceeded tool call loop limit (12)") ∧
      tf.toolRounds = 12 ∧ tf.apiCalls = 12 ∧
      Model.metaGet (Ollama.applyOllamaMetadata [] tf) Model.MetadataKeyToolRounds =
        some "12" :=
  C2_tool_loop_limit.1 stubAlwaysToolCallChat "llama3.1" {} [("user", "go")]
    [{ name := "t" }] stubHandlersT [] rfl
    (fun _ => ⟨{ message := stubToolCallMessage }, rfl, rfl, ⟨_, rfl⟩⟩)

/-- C3: whenever either embedded flow returns successfully, its usage totals
    satisfy `api_calls = tool_rounds + 1`, and the ollama metadata map
    renders `api_calls` as the string of `tool_rounds + 1`. -/
theorem C3_api_calls_invariant :
    (∀ (chat : Ollama.OllamaChatRequest → Except GoError Ollama.OllamaChatResponse)
        (modelName : String) (cfg : Model.GeneratorConfig)
        (initialMessages : List (String × String)) (tools : List MTool)
        (handlers : Handlers) (meta : Model.GenerationMetadata)
        (tf : Ollama.FlowUsageTotals) (text : String),
        Ollama.runChatFlow chat modelName cfg initialMessages tools handlers =
          (tf, .ok text) →
        tf.apiCalls = tf.toolRounds + 1 ∧
        Model.metaGet (Ollama.applyOllamaMetadata meta tf) Model.MetadataKeyAPICalls =
          some (toString (tf.toolRounds + 1))) ∧
    (∀ (respond : OpenAIResponse.OAParams → Except GoError OpenAIResponse.OAResponse)
        (initialParams : OpenAIResponse.OAParams) (handlers : Handlers)
        (textCfg : Option JVal) (tf : OpenAIResponse.FlowUsageTotals)
        (final : OpenAIResponse.OAResponse),
        OpenAIResponse.runResponsesFlow respond initialParams handlers textCfg =
          (tf, .ok final) →
        tf.apiCalls = tf.toolRounds + 1) := by
  constructor
  · intro chat modelName cfg initialMessages tools handlers meta tf text hrun
    rw [Ollama.runChatFlow] at hrun
    have h := Ollama.runChatFlowLoop_ok_api_calls chat modelName
      (Ollama.buildOllamaToolDefs tools) (Ollama.buildOllamaChatOptions cfg) tools handlers
      Ollama.maxToolRounds 0 _ {} rfl rfl tf text hrun
    refine ⟨h, ?_⟩
    rw [Ollama.applyOllamaMetadata_api_calls, h]
  · intro respond initialParams handlers textCfg tf final hrun
    rw [OpenAIResponse.runResponsesFlow] at hrun
    split at hrun
    · simp at hrun
    · split at hrun
      · simp at hrun
      · exact OpenAIResponse.runResponsesLoop_ok_api_calls respond handlers initialParams
          textCfg OpenAIResponse.maxToolRounds 0 _ _ _
          (by simp [OpenAIResponse.accumulateFlowUsage])
          (by simp [OpenAIResponse.accumulateFlowUsage]) tf final hrun

/-- Witness for C3: a stub provider with no tool calls yields one API call and
    zero tool rounds, satisfying `api_calls = tool_rounds + 1`. -/
theorem C3_api_calls_invariant_witness :
    Ollama.runChatFlow (fun _ => .ok { message := { role := "assistant", content := "hi" } })
        "llama3.1" {} [("user", "q")] [] (fun _ => none) =
      ({ apiCalls := 1 }, .ok "hi") ∧
    ({ apiCalls := 1 } : Ollama.FlowUsageTotals).apiCalls =
      ({ apiCalls := 1 } : Ollama.FlowUsageTotals).toolRounds + 1 ∧
    Model.metaGet
        (Ollama.applyOllamaMetadata [] ({ apiCalls := 1 } : Ollama.FlowUsageTotals))
        Model.MetadataKeyAPICalls =
      some (toString (({ apiCalls := 1 } : Ollama.FlowUsageTotals).toolRounds + 1)) := by
  have h := C3_api_calls_invariant.1
    (fun _ => .ok { message := { role := "assistant", content := "hi" } })
    "llama3.1" {} [("user", "q")] [] (fun _ => none) [] { apiCalls := 1 } "hi" rfl
  exact ⟨rfl, h.1, h.2⟩

/-! ## C1: treatment of tool-handler errors in the orchestration loops -/

/-- A stub openai_response provider whose single output item is a tool call to
    "fail_tool". -/
def stubFailToolResponse : OpenAIResponse.OAResponse :=
  { output := [{ type := "function_call",
                 asFunctionCall :=
                   { callID := "call-1", name := "fail_tool", arguments := "\x7b\x7d" } }] }

/-- A handler map whose only tool always returns an error. -/
def stubFailHandlers : Handlers :=
  fun n => if n = "fail_tool" then some (fun _ => .error "tool handler exploded") else none

/-- Counterexample to C1: in the openai_response loop, a handler error is not
    encoded as a tool-error payload — the flow fails, returning the handler's
    error after one API call and one started tool round. -/
theorem C1_tool_error_counterexample :
    OpenAIResponse.runResponsesFlow (fun _ => .ok stubFailToolResponse)
        { input := .items [.message "go" "user"] } stubFailHandlers none =
      ({ apiCalls := 1, toolRounds := 1 }, .error "tool handler exploded") := rfl

/-- C1 (amended): the ollama loop encodes a handler error as the
    `{"error": <message>}` payload in that call's tool-output record and
    keeps processing (the round does not fail); the openai_response and
    gemini loops instead abort the round's tool processing with the
    handler's error. -/
theorem C1_tool_error_amended :
    (∀ (handlers : Handlers) (toolCall : Ollama.OllamaToolCall)
        (rest : List Ollama.OllamaToolCall) (hname : String) (handler : ToolHandler)
        (args msg : String),
        Ollama.resolveToolHandler toolCall.function.name handlers = .ok (hname, handler) →
        Ollama.normalizeToolArguments toolCall.function.arguments = .ok args →
        handler args = .error msg →
        Ollama.processToolCalls handlers (toolCall :: rest) =
          (Ollama.processToolCalls handlers rest).map
            (fun restMsgs =>
              ({ role := "tool", content := jsonSerialize (.obj [("error", .str msg)]),
                 name := hname, toolName := hname, toolCallID := toolCall.id } :
                Ollama.OllamaChatMessage) :: restMsgs)) ∧
    (∀ (handlers : Handlers) (call : OpenAIResponse.OAFunctionCall)
        (rest : List OpenAIResponse.OAFunctionCall) (handler : ToolHandler) (msg : String),
        handlers call.name = some handler →
        handler call.arguments = .error msg →
        OpenAIResponse.processFunctionCalls handlers (call :: rest) = .error msg) ∧
    (∀ (handlers : Handlers) (call : Gemini.GFunctionCall)
        (rest : List Gemini.GFunctionCall) (handler : ToolHandler) (msg : String),
        handlers call.name = some handler →
        handler (jsonSerialize (.obj call.args)) = .error msg →
        Gemini.processFunctionCalls handlers (call :: rest) = .error msg) := by
  refine ⟨?_, ?_, ?_⟩
  · intro handlers toolCall rest hname handler args msg hres hnorm herr
    simp only [Ollama.processToolCalls, hres, hnorm, herr]
    cases h : Ollama.processToolCalls handlers rest <;> simp [h, Except.map]
  · intro handlers call rest handler msg hh herr
    simp only [OpenAIResponse.processFunctionCalls, hh, herr]
  · intro handlers call rest handler msg hh herr
    simp only [Gemini.processFunctionCalls, hh, herr]

/-- The tool call and always-erroring handler map used in the C1 witness. -/
def boomToolCall : Ollama.OllamaToolCall :=
  { id := "c1", type := "function",
    function := { name := "t", arguments := Ollama.ToolArgs.nil } }

def boomHandlers : Handlers :=
  fun n => if n = "t" then some (fun _ => .error "boom") else none

/-- A stub provider that asks for tool "t" on the first submission and
    answers "done" once a tool-output message is present. -/
def stubRecoveringChat :
    Ollama.OllamaChatRequest → Except GoError Ollama.OllamaChatResponse :=
  fun req =>
    if req.messages.length ≤ 1 then
      .ok { message := { role := "assistant", content := "", toolCalls := [boomToolCall] } }
    else
      .ok { message := { role := "assistant", content := "done" } }

/-- Witness for C1 (amended): the erroring handler's call yields the encoded
    `{"error":"boom"}` record, and a full ollama run recovers — the loop
    continues past the failed handler to a successful second round. -/
theorem C1_tool_error_amended_witness :
    Ollama.processToolCalls boomHandlers [boomToolCall] =
      .ok [{ role := "tool", content := "\x7b\"error\":\"boom\"\x7d",
             name := "t", toolName := "t", toolCallID := "c1" }] ∧
    Ollama.runChatFlow stubRecoveringChat "llama3.1" {} [("user", "go")]
        [{ name := "t" }] boomHandlers =
      ({ apiCalls := 2, toolRounds := 1 }, .ok "done") :=
  ⟨(C1_tool_error_amended.1 boomHandlers boomToolCall [] "t"
      (fun _ => .error "boom") "\x7b\x7d" "boom" rfl rfl rfl).trans rfl,
   rfl⟩

/-! ## pkg/mcp: tool execution (`tools.go`, `ExecuteTool` /
`normalizeCallToolResult`) -/

namespace MCP

/-- `mcp.CallToolRequest` as the adapter builds it: tool name, the decoded
    argument map, and the Authorization header when an auth token is set. -/
structure CallToolRequest where
  name : String
  arguments : List (String × JVal)
  authHeader : Option String := none

/-- `mcp.CallToolResult` fields the adapter reads. -/
structure CallToolResult where
  isError : Bool := false
  content : JVal := .null
  structuredContent : JVal := .null

/-- Model of `json.Unmarshal(rawArgs, &args)` with `args` pre-initialized to
    the empty `map[string]any`: an object document yields its fields, a null
    document leaves the map empty, anything else is an unmarshal error. -/
def goUnmarshalToMap (s : String) : Option (List (String × JVal)) :=
  match goJSONParse s with
  | some (.obj fields) => some fields
  | some .null => some []
  | _ => none

/-- `normalizeCallToolResult` (nil-pointer results error). -/
def normalizeCallToolResult : Option CallToolResult → Except GoError JVal
  | none => .error "nil call tool result"
  | some result =>
      .ok (.obj [("is_error", .bool result.isError), ("content", result.content),
                 ("structured_content", result.structuredContent)])

/-- Request construction lines of `ExecuteTool`. -/
def buildCallToolRequest (authToken toolName : String)
    (args : List (String × JVal)) : CallToolRequest :=
  { name := toolName, arguments := args,
    authHeader := if authToken ≠ "" then some authToken else none }

/-- The call/normalize tail of `ExecuteTool`, after argument decoding:
    transport failures and nil results are degraded to `{is_error, error}`
    payloads; any received result is normalized. -/
def executeWithArgs (authToken : String)
    (callTool : CallToolRequest → Except GoError (Option CallToolResult))
    (toolName : String) (args : List (String × JVal)) : Except GoError JVal :=
  match callTool (buildCallToolRequest authToken toolName args) with
  | .error e => .ok (.obj [("is_error", .bool true), ("error", .str e)])
  | .ok result =>
      match normalizeCallToolResult result with
      | .error normErr => .ok (.obj [("is_error", .bool true), ("error", .str normErr)])
      | .ok normalized => .ok normalized

/-- `ExecuteTool` from `pkg/mcp/tools.go`; `connected` models whether
    `a.client` is non-nil. -/
def ExecuteTool (connected : Bool) (authToken : String)
    (callTool : CallToolRequest → Except GoError (Option CallToolResult))
    (toolName : String) (rawArgs : String) : Except GoError JVal :=
  if !connected then .error "mcp client is not connected"
  else if goTrimSpace toolName = "" then .error "toolName is required"
  else
    let argsE : Except GoError (List (String × JVal)) :=
      if rawArgs.length > 0 && rawArgs ≠ "null" then
        match goUnmarshalToMap rawArgs with
        | some fields => .ok fields
        | none => .error "invalid character in tool arguments"
      else .ok []
    match argsE with
    | .error e => .error e
    | .ok args => executeWithArgs authToken callTool toolName args

end MCP

/-- Counterexample to C5: with a connected client, a tool-reported error
    (`IsError = true`) is returned as the normalized
    `{is_error, content, structured_content}` payload — not as the claimed
    `{is_error: true, error: <message>}` shape. -/
theorem C5_tool_error_counterexample :
    MCP.ExecuteTool true ""
        (fun _ => .ok (some { isError := true, content := .str "went wrong" }))
        "lookup" "" =
      .ok (.obj [("is_error", .bool true), ("content", .str "went wrong"),
                 ("structured_content", .null)]) ∧
    ∀ msg : String,
      (JVal.obj [("is_error", .bool true), ("content", .str "went wrong"),
                 ("structured_content", .null)]) ≠
        .obj [("is_error", .bool true), ("error", .str msg)] := by
  refine ⟨rfl, ?_⟩
  intro msg h
  simp at h

/-- C5 (amended): with a connected client and non-blank tool name, empty or
    null raw arguments reach `CallTool` as the empty map; a transport failure
    or nil result returns `{is_error: true, error: <message>}` without an
    outward error; and any received result — tool-reported error included —
    returns `{is_error: <server flag>, content, structured_content}`. -/
theorem C5_execute_tool_amended :
    (∀ (authToken toolName : String)
        (callTool : MCP.CallToolRequest → Except GoError (Option MCP.CallToolResult)),
        goTrimSpace toolName ≠ "" →
        MCP.ExecuteTool true authToken callTool toolName "" =
          MCP.executeWithArgs authToken callTool toolName [] ∧
        MCP.ExecuteTool true authToken callTool toolName "null" =
          MCP.executeWithArgs authToken callTool toolName []) ∧
    (∀ (authToken toolName : String) (args : List (String × JVal)) (e : GoError)
        (callTool : MCP.CallToolRequest → Except GoError (Option MCP.CallToolResult)),
        callTool (MCP.buildCallToolRequest authToken toolName args) = .error e →
        MCP.executeWithArgs authToken callTool toolName args =
          .ok (.obj [("is_error", .bool true), ("error", .str e)])) ∧
    (∀ (authToken toolName : String) (args : List (String × JVal))
        (callTool : MCP.CallToolRequest → Except GoError (Option MCP.CallToolResult)),
        callTool (MCP.buildCallToolRequest authToken toolName args) = .ok none →
        MCP.executeWithArgs authToken callTool toolName args =
          .ok (.obj [("is_error", .bool true), ("error", .str "nil call tool result")])) ∧
    (∀ (authToken toolName : String) (args : List (String × JVal))
        (res : MCP.CallToolResult)
        (callTool : MCP.CallToolRequest → Except GoError (Option MCP.CallToolResult)),
        callTool (MCP.buildCallToolRequest authToken toolName args) = .ok (some res) →
        MCP.executeWithArgs authToken callTool toolName args =
          .ok (.obj [("is_error", .bool res.isError), ("content", res.content),
                     ("structured_content", res.structuredContent)])) := by
  refine ⟨?_, ?_, ?_, ?_⟩
  · intro authToken toolName callTool hname
    constructor
    · simp [MCP.ExecuteTool, hname]
    · simp [MCP.ExecuteTool, hname]
  · intro authToken toolName args e callTool hct
    simp [MCP.executeWithArgs, hct]
  · intro authToken toolName args callTool hct
    simp [MCP.executeWithArgs, hct, MCP.normalizeCallToolResult]
  · intro authToken toolName args res callTool hct
    simp [MCP.executeWithArgs, hct, MCP.normalizeCallToolResult]

/-- An MCP call-tool stub that echoes the argument map it received back as
    the result content. -/
def echoCallTool : MCP.CallToolRequest → Except GoError (Option MCP.CallToolResult) :=
  fun req => .ok (some { isError := false, content := .obj req.arguments })

/-- Witness for C5 (amended): empty raw args reach `CallTool` as `{}` (the
    echoing stub returns the empty object), and a concrete transport failure
    is degraded to the `{is_error, error}` payload. -/
theorem C5_execute_tool_amended_witness :
    MCP.ExecuteTool true "token-1" echoCallTool "lookup" "" =
      MCP.executeWithArgs "token-1" echoCallTool "lookup" [] ∧
    MCP.executeWithArgs "token-1" echoCallTool "lookup" [] =
      .ok (.obj [("is_error", .bool false), ("content", .obj []),
                 ("structured_content", .null)]) ∧
    MCP.executeWithArgs "" (fun _ => .error "connection reset") "lookup" [] =
      .ok (.obj [("is_error", .bool true), ("error", .str "connection reset")]) := by
  refine ⟨?_, rfl, ?_⟩
  · exact (C5_execute_tool_amended.1 "token-1" "lookup" echoCallTool (by decide)).1
  · exact C5_execute_tool_amended.2.1 "" "lookup" [] "connection reset" _ rfl

/-! ## Structured-output finishing: fence stripping and the repair round
(`ollama/content.go` `extractJSONPayload` / `structuredGenerator.Generate`;
`openai_response.go` `structuredGenerator.Generate`) -/

/-- Last index of a character in a list, if present. -/
def lastIndexOf (cs : List Char) (c : Char) : Option Nat :=
  match cs.reverse.findIdx? (· = c) with
  | none => none
  | some i => some (cs.length - 1 - i)

namespace Ollama

/-- `extractJSONPayload` from `ollama/content.go`: trim space, strip markdown
    fences, and cut to the outermost brace span when one exists. -/
def extractJSONPayload (text : String) : String :=
  let trimmed := goTrimSpace text
  let trimmed := goCutPre trimmed "```json"
  let trimmed := goCutPre trimmed "```"
  let trimmed := goCutSuf trimmed "```"
  let trimmed := goTrimSpace trimmed
  let cs := trimmed.toList
  match cs.findIdx? (· = '\x7b'), lastIndexOf cs '\x7d' with
  | some s, some e =>
      if s < e then goTrimSpace (String.mk ((cs.drop s).take (e + 1 - s))) else trimmed
  | _, _ => trimmed

/-- The structured-output tail of `structuredGenerator.Generate` after the
    chat flow returns `finalText`: parse the extracted payload; on failure run
    the single repair round (`repairStructuredJSON`, a provider call modelled
    by `repair`) and parse its extracted output.  The second component counts
    repair invocations.  Parse-failure messages are collapsed to one constant
    (the Go code wraps `json.Unmarshal` errors whose text no claim reads). -/
def structuredGenerateFinish (finalText : String)
    (repair : String → Except GoError String) : Except GoError JVal × Nat :=
  match goJSONParse (extractJSONPayload finalText) with
  | some v => (.ok v, 0)
  | none =>
      match repair finalText with
      | .error _ => (.error "structured output parse failed", 1)
      | .ok repaired =>
          match goJSONParse (extractJSONPayload repaired) with
          | some v => (.ok v, 1)
          | none => (.error "structured output parse failed", 1)

end Ollama

namespace OpenAIResponse

/-- The structured-output tail of `structuredGenerator.Generate` in
    `openai_response.go`: trim the output text, reject empty output, and
    parse it directly — no fence stripping and no repair round.  The second
    component counts repair invocations (always 0 in this provider). -/
def structuredGenerateFinish (outputText : String) : Except GoError JVal × Nat :=
  let output := goTrimSpace outputText
  if output = "" then (.error "response output is empty", 0)
  else
    match goJSONParse output with
    | some v => (.ok v, 0)
    | none => (.error "structured output parse failed", 0)

end OpenAIResponse

/-- Counterexample to C6: the openai_response structured path does not strip
    markdown fences (the fenced document fails to parse and Generate fails
    with zero repair rounds attempted), even though the same text parses once
    fences are stripped. -/
theorem C6_repair_counterexample :
    OpenAIResponse.structuredGenerateFinish "```json\n\x7b\"status\":\"ok\"\x7d\n```" =
      (.error "structured output parse failed", 0) ∧
    goJSONParse (Ollama.extractJSONPayload "```json\n\x7b\"status\":\"ok\"\x7d\n```") =
      some (.obj [("status", .str "ok")]) :=
  ⟨rfl, rfl⟩

/-- C6 (amended): in the ollama structured path the final text is
    fence-stripped before parsing and, on parse failure, exactly one repair
    round is attempted (never more); in the openai_response structured path
    the trimmed output is parsed directly, with no fence stripping and no
    repair round. -/
theorem C6_structured_repair_amended :
    (∀ (finalText : String) (repair : String → Except GoError String),
        (Ollama.structuredGenerateFinish finalText repair).2 ≤ 1) ∧
    (∀ (finalText : String) (repair : String → Except GoError String) (v : JVal),
        goJSONParse (Ollama.extractJSONPayload finalText) = some v →
        Ollama.structuredGenerateFinish finalText repair = (.ok v, 0)) ∧
    (∀ (finalText repaired : String) (repair : String → Except GoError String),
        goJSONParse (Ollama.extractJSONPayload finalText) = none →
        repair finalText = .ok repaired →
        Ollama.structuredGenerateFinish finalText repair =
          (match goJSONParse (Ollama.extractJSONPayload repaired) with
           | some v => (.ok v, 1)
           | none => (.error "structured output parse failed", 1))) ∧
    (∀ (finalText : String) (repair : String → Except GoError String) (e : GoError),
        goJSONParse (Ollama.extractJSONPayload finalText) = none →
        repair finalText = .error e →
        Ollama.structuredGenerateFinish finalText repair =
          (.error "structured output parse failed", 1)) ∧
    (∀ text : String, (OpenAIResponse.structuredGenerateFinish text).2 = 0) ∧
    (∀ text : String, goTrimSpace text ≠ "" →
        OpenAIResponse.structuredGenerateFinish text =
          (match goJSONParse (goTrimSpace text) with
           | some v => (.ok v, 0)
           | none => (.error "structured output parse failed", 0))) := by
  refine ⟨?_, ?_, ?_, ?_, ?_, ?_⟩
  · intro finalText repair
    unfold Ollama.structuredGenerateFinish
    split
    · simp
    · split
      · simp
      · split <;> simp
  · intro finalText repair v h
    simp [Ollama.structuredGenerateFinish, h]
  · intro finalText repaired repair h hrep
    simp [Ollama.structuredGenerateFinish, h, hrep]
  · intro finalText repair e h hrep
    simp [Ollama.structuredGenerateFinish, h, hrep]
  · intro text
    simp only [OpenAIResponse.structuredGenerateFinish]
    split
    · simp
    · split <;> simp
  · intro text h
    simp [OpenAIResponse.structuredGenerateFinish, h]

/-- Witness for C6 (amended): a fenced document parses with zero repairs in
    the ollama path; an unparsable text triggers exactly one repair whose
    reformatted output is then parsed. -/
theorem C6_structured_repair_amended_witness :
    Ollama.structuredGenerateFinish "```json\n\x7b\"a\":1\x7d\n```"
        (fun _ => .error "no repair") =
      (.ok (.obj [("a", .num 1)]), 0) ∧
    Ollama.structuredGenerateFinish "here is your answer"
        (fun _ => .ok "\x7b\"a\":2\x7d") =
      (.ok (.obj [("a", .num 2)]), 1) := by
  constructor
  · exact C6_structured_repair_amended.2.1 "```json\n\x7b\"a\":1\x7d\n```"
      (fun _ => .error "no repair") (.obj [("a", .num 1)]) rfl
  · exact (C6_structured_repair_amended.2.2.1 "here is your answer" "\x7b\"a\":2\x7d"
      (fun _ => .ok "\x7b\"a\":2\x7d") rfl rfl).trans rfl

/-! ## pkg/llms/huggingface embeddings (`parseFeatureExtractionResponse`,
`meanPool`, `GenerateBatch`) -/

namespace HuggingFace

/-- Shape of a decoded HF feature-extraction response body: floats (as `ℚ`),
    nested arrays, or anything else (`other` also covers `null`, which Go
    decodes to a nil slice that every branch then rejects for emptiness). -/
inductive HFJson where
  | num (q : ℚ)
  | arr (xs : List HFJson)
  | other

/-- Decode every element or fail (the all-or-nothing behaviour of
    `json.Unmarshal` on slices). -/
def mapOpt (f : α → Option β) : List α → Option (List β)
  | [] => some []
  | x :: xs =>
      match f x with
      | none => none
      | some y => (mapOpt f xs).map (y :: ·)

/-- Model of `json.Unmarshal` into `float64`. -/
def asNum : HFJson → Option ℚ
  | .num q => some q
  | _ => none

/-- Model of `json.Unmarshal` into `[]float64`. -/
def asVec : HFJson → Option (List ℚ)
  | .arr xs => mapOpt asNum xs
  | _ => none

/-- Model of `json.Unmarshal` into `[][]float64`. -/
def as2D : HFJson → Option (List (List ℚ))
  | .arr xs => mapOpt asVec xs
  | _ => none

/-- Model of `json.Unmarshal` into `[][][]float64`. -/
def as3D : HFJson → Option (List (List (List ℚ)))
  | .arr xs => mapOpt as2D xs
  | _ => none

/-- Pointwise truncated addition of one token vector into the running sums
    (`result[j] += v` guarded by `j < dims`). -/
def addVecTrunc (acc vec : List ℚ) : List ℚ :=
  acc.enum.map fun ja => ja.2 + vec.getD ja.1 0

/-- `meanPool` from the huggingface embeddings file: average token-level
    vectors into one sentence vector of the first token's dimensionality. -/
def meanPool (tokenVectors : List (List ℚ)) : List ℚ :=
  match tokenVectors with
  | [] => []
  | v₀ :: _ =>
      let dims := v₀.length
      let count : ℚ := tokenVectors.length
      let sums := tokenVectors.foldl addVecTrunc (List.replicate dims 0)
      sums.map (· / count)

/-- The 3-D fallback tail of `parseFeatureExtractionResponse`. -/
def parse3DTail (data : HFJson) : Except GoError (List (List ℚ)) :=
  match as3D data with
  | some vss =>
      if vss.length > 0 then .ok (vss.map meanPool)
      else .error "unable to parse huggingface embedding response"
  | none => .error "unable to parse huggingface embedding response"

/-- `parseFeatureExtractionResponse`: 1-D (single input only), then 2-D, then
    mean-pooled 3-D. -/
def parseFeatureExtractionResponse (data : HFJson) (expectedCount : Nat) :
    Except GoError (List (List ℚ)) :=
  let try1D : Option (List (List ℚ)) :=
    if expectedCount = 1 then
      match asVec data with
      | some v => if v.length > 0 then some [v] else none
      | none => none
    else none
  match try1D with
  | some r => .ok r
  | none =>
      match as2D data with
      | some vs => if vs.length > 0 then .ok vs else parse3DTail data
      | none => parse3DTail data

/-- `validateEmbeddingInputs`. -/
def validateEmbeddingInputs (inputs : List String) : Except GoError Unit :=
  if inputs.length = 0 then .error "at least one input is required"
  else
    match inputs.findIdx? (fun s => goTrimSpace s = "") with
    | some i => .error ("input at index " ++ toString i ++ " is empty")
    | none => .ok ()

/-- `GenerateBatch` from the huggingface embeddings file, from validation
    through the shape checks; `responseData` is the decoded HTTP response
    body (`featureExtraction`'s transport layer). -/
def GenerateBatch (inputs : List String) (responseData : Except GoError HFJson) :
    Except GoError (List (List ℚ)) :=
  match validateEmbeddingInputs inputs with
  | .error e => .error e
  | .ok _ =>
      match responseData with
      | .error e => .error e
      | .ok data =>
          match parseFeatureExtractionResponse data inputs.length with
          | .error e => .error e
          | .ok vectors =>
              if vectors.length = 0 then .error "embedding response has no data"
              else if vectors.length ≠ inputs.length then
                .error ("embedding response size mismatch: expected " ++
                  toString inputs.length ++ ", got " ++ toString vectors.length)
              else .ok vectors

/-- A 2-D response (a nonempty array of flat vectors) is never consumed by
    the 1-D branch: its first element is itself an array. -/
theorem asVec_of_as2D_nonempty (data : HFJson) (vs : List (List ℚ))
    (h : as2D data = some vs) (hne : vs ≠ []) : asVec data = none := by
  cases data with
  | num q => simp [as2D] at h
  | other => simp [as2D] at h
  | arr xs =>
      cases xs with
      | nil =>
          simp [as2D, mapOpt] at h
          exact absurd h.symm (fun hh => hne hh.symm)
      | cons x rest =>
          simp only [as2D, mapOpt] at h
          cases hx : asVec x with
          | none => simp [hx] at h
          | some row =>
              cases x with
              | num q => simp [asVec] at hx
              | other => simp [asVec] at hx
              | arr ys => simp [asVec, asNum, mapOpt]

end HuggingFace

namespace HuggingFace

/-- A 3-D response (nonempty array of 2-D blocks) is never consumed by the
    1-D branch either. -/
theorem asVec_of_as3D_nonempty (data : HFJson) (vss : List (List (List ℚ)))
    (h : as3D data = some vss) (hne : vss ≠ []) : asVec data = none := by
  cases data with
  | num q => simp [as3D] at h
  | other => simp [as3D] at h
  | arr xs =>
      cases xs with
      | nil =>
          simp [as3D, mapOpt] at h
          exact absurd h.symm (fun hh => hne hh.symm)
      | cons x rest =>
          simp only [as3D, mapOpt] at h
          cases hx : as2D x with
          | none => simp [hx] at h
          | some block =>
              cases x with
              | num q => simp [as2D] at hx
              | other => simp [as2D] at hx
              | arr ys => simp [asVec, asNum, mapOpt]

/-- A flat array whose head is a number parses as neither 2-D nor 3-D. -/
theorem as2D_cons_num (q : ℚ) (rest : List HFJson) :
    as2D (.arr (.num q :: rest)) = none := by
  simp [as2D, mapOpt, asVec]

theorem as3D_cons_num (q : ℚ) (rest : List HFJson) :
    as3D (.arr (.num q :: rest)) = none := by
  simp [as3D, mapOpt, as2D]

/-- `validateEmbeddingInputs` only succeeds on non-empty input lists. -/
theorem validateEmbeddingInputs_ok_length (inputs : List String)
    (h : validateEmbeddingInputs inputs = .ok ()) : inputs.length ≠ 0 := by
  intro hlen
  simp [validateEmbeddingInputs, hlen] at h

end HuggingFace

/-- C8: the embedding response parser returns one vector per row of a 2-D
    array; accepts a 1-D array only for a single requested input (a flat
    array errors whenever `expectedCount ≠ 1`); mean-pools each input's
    token-level vectors for a 3-D array; and `GenerateBatch` fails whenever
    the parsed vector count differs from the input count, succeeding exactly
    on agreement. -/
theorem C8_embedding_shapes :
    (∀ (data : HuggingFace.HFJson) (vs : List (List ℚ)) (n : Nat),
        HuggingFace.as2D data = some vs → vs ≠ [] →
        HuggingFace.parseFeatureExtractionResponse data n = .ok vs) ∧
    (∀ (data : HuggingFace.HFJson) (v : List ℚ),
        HuggingFace.asVec data = some v → v ≠ [] →
        HuggingFace.parseFeatureExtractionResponse data 1 = .ok [v]) ∧
    (∀ (q : ℚ) (rest : List HuggingFace.HFJson) (n : Nat), n ≠ 1 →
        HuggingFace.parseFeatureExtractionResponse (.arr (.num q :: rest)) n =
          .error "unable to parse huggingface embedding response") ∧
    (∀ (data : HuggingFace.HFJson) (vss : List (List (List ℚ))) (n : Nat),
        HuggingFace.as3D data = some vss → vss ≠ [] →
        HuggingFace.as2D data = none →
        HuggingFace.parseFeatureExtractionResponse data n =
          .ok (vss.map HuggingFace.meanPool)) ∧
    (∀ (inputs : List String) (data : HuggingFace.HFJson) (vectors : List (List ℚ)),
        HuggingFace.parseFeatureExtractionResponse data inputs.length = .ok vectors →
        vectors.length ≠ inputs.length →
        ∃ e, HuggingFace.GenerateBatch inputs (.ok data) = .error e) ∧
    (∀ (inputs : List String) (data : HuggingFace.HFJson) (vectors : List (List ℚ)),
        HuggingFace.validateEmbeddingInputs inputs = .ok () →
        HuggingFace.parseFeatureExtractionResponse data inputs.length = .ok vectors →
        vectors.length = inputs.length →
        HuggingFace.GenerateBatch inputs (.ok data) = .ok vectors) := by
  refine ⟨?_, ?_, ?_, ?_, ?_, ?_⟩
  · intro data vs n h2 hne
    have h1 := HuggingFace.asVec_of_as2D_nonempty data vs h2 hne
    have hlen : 0 < vs.length := List.length_pos.mpr hne
    by_cases hn : n = 1
    · subst hn
      simp [HuggingFace.parseFeatureExtractionResponse, h1, h2, hlen]
    · simp [HuggingFace.parseFeatureExtractionResponse, hn, h2, hlen]
  · intro data v h1 hne
    have hlen : 0 < v.length := List.length_pos.mpr hne
    simp [HuggingFace.parseFeatureExtractionResponse, h1, hlen]
  · intro q rest n hn
    simp [HuggingFace.parseFeatureExtractionResponse, hn, HuggingFace.as2D_cons_num,
      HuggingFace.parse3DTail, HuggingFace.as3D_cons_num]
  · intro data vss n h3 hne h2
    have h1 := HuggingFace.asVec_of_as3D_nonempty data vss h3 hne
    have hlen : 0 < vss.length := List.length_pos.mpr hne
    by_cases hn : n = 1
    · subst hn
      simp [HuggingFace.parseFeatureExtractionResponse, h1, h2,
        HuggingFace.parse3DTail, h3, hlen]
    · simp [HuggingFace.parseFeatureExtractionResponse, hn, h2,
        HuggingFace.parse3DTail, h3, hlen]
  · intro inputs data vectors hparse hmismatch
    cases hval : HuggingFace.validateEmbeddingInputs inputs with
    | error e => exact ⟨e, by simp [HuggingFace.GenerateBatch, hval]⟩
    | ok u =>
        cases u
        by_cases hz : vectors.length = 0
        · exact ⟨"embedding response has no data",
            by simp [HuggingFace.GenerateBatch, hval, hparse, hz]⟩
        · exact ⟨"embedding response size mismatch: expected " ++
              toString inputs.length ++ ", got " ++ toString vectors.length,
            by simp [HuggingFace.GenerateBatch, hval, hparse, hz, hmismatch]⟩
  · intro inputs data vectors hval hparse hlen
    have hnz : vectors.length ≠ 0 := by
      rw [hlen]
      exact HuggingFace.validateEmbeddingInputs_ok_length inputs hval
    have hne : inputs ≠ [] := by
      intro hnil
      exact HuggingFace.validateEmbeddingInputs_ok_length inputs hval (by simp [hnil])
    simp [HuggingFace.GenerateBatch, hval, hparse, hnz, hlen, hne]

/-- Witness for C8 at concrete responses: a 2×2 2-D array parses as two
    vectors; a 3-D array mean-pools to [[2, 4]]; a two-row response against a
    one-input batch fails. -/
theorem C8_embedding_shapes_witness :
    HuggingFace.parseFeatureExtractionResponse
        (.arr [.arr [.num 1, .num 2], .arr [.num 3, .num 4]]) 2 =
      .ok [[1, 2], [3, 4]] ∧
    HuggingFace.parseFeatureExtractionResponse
        (.arr [.arr [.arr [.num 1, .num 3], .arr [.num 3, .num 5]]]) 1 =
      .ok [[2, 4]] ∧
    (∃ e, HuggingFace.GenerateBatch ["a"]
        (.ok (.arr [.arr [.num 1, .num 2], .arr [.num 3, .num 4]])) = .error e) := by
  refine ⟨?_, ?_, ?_⟩
  · exact C8_embedding_shapes.1 _ [[1, 2], [3, 4]] 2 rfl (by decide)
  · have h := C8_embedding_shapes.2.2.2.1
      (.arr [.arr [.arr [.num 1, .num 3], .arr [.num 3, .num 5]]])
      [[[1, 3], [3, 5]]] 1 rfl (by decide) rfl
    have hmp : ([[[1, 3], [3, 5]]] : List (List (List ℚ))).map HuggingFace.meanPool =
        [[2, 4]] := by
      simp [HuggingFace.meanPool, HuggingFace.addVecTrunc, List.enum, List.enumFrom]
      norm_num
    rw [h, hmp]
  · exact C8_embedding_shapes.2.2.2.2.1 ["a"] _ [[1, 2], [3, 4]] rfl (by decide)

/-! ## Audio transcription prompt assembly (`gemini/audio.go`,
`openai/openai_audio.go`) -/

namespace Audio

/-- One iteration of `normalizeAudioKeywords`'s loop (the function is
    textually identical in `gemini/audio.go` and `openai/openai_audio.go`):
    trim all fields, drop blank mistypes, and drop the entry when everything
    is empty. -/
def cleanKeyword (k : Model.AudioKeyword) : Option Model.AudioKeyword :=
  let word := goTrimSpace k.word
  let definition := goTrimSpace k.definition
  let commonMistypes := (k.commonMistypes.map goTrimSpace).filter (· ≠ "")
  if word = "" ∧ definition = "" ∧ commonMistypes = [] then none
  else some { word := word, commonMistypes := commonMistypes, definition := definition }

/-- `normalizeAudioKeywords`. -/
def normalizeAudioKeywords (keywords : List Model.AudioKeyword) :
    List Model.AudioKeyword :=
  if keywords.isEmpty then [] else keywords.filterMap cleanKeyword

/-- `json.Marshal` of one `model.AudioKeyword` (JSON tags `word`,
    `common_mistypes`, `definition`). -/
def keywordToJVal (k : Model.AudioKeyword) : JVal :=
  .obj [("word", .str k.word),
        ("common_mistypes", .arr (k.commonMistypes.map .str)),
        ("definition", .str k.definition)]

/-- `json.Marshal` of a `[]model.AudioKeyword`. -/
def marshalKeywords (keywords : List Model.AudioKeyword) : String :=
  jsonSerialize (.arr (keywords.map keywordToJVal))

end Audio

namespace Gemini

/-- `buildCommonMissedWordsPrompt` from `gemini/audio.go` (the Go error
    return only mirrors `json.Marshal`, which cannot fail on this data). -/
def buildCommonMissedWordsPrompt (keywords : List Model.AudioKeyword) : String :=
  let normalizedKeywords := Audio.normalizeAudioKeywords keywords
  if normalizedKeywords.isEmpty then ""
  else "Common missed words: " ++ Audio.marshalKeywords normalizedKeywords

/-- `buildAudioTranscriptionPrompt` from `gemini/audio.go`. -/
def buildAudioTranscriptionPrompt (opts : Model.AudioOptions) : String :=
  let customPrompt := goTrimSpace opts.prompt
  if customPrompt ≠ "" then customPrompt
  else
    let base := "Transcribe this audio accurately. Return only the transcript text."
    let keywordsPrompt := buildCommonMissedWordsPrompt opts.keywords
    if keywordsPrompt = "" then base else base ++ "\n" ++ keywordsPrompt

end Gemini

namespace OpenAI

/-- `buildCommonMissedWordsPrompt` from `openai/openai_audio.go`. -/
def buildCommonMissedWordsPrompt (keywords : List Model.AudioKeyword) : String :=
  let normalizedKeywords := Audio.normalizeAudioKeywords keywords
  if normalizedKeywords.isEmpty then ""
  else "Common missed words: " ++ Audio.marshalKeywords normalizedKeywords

/-- `buildAudioTranscriptionPrompt` from `openai/openai_audio.go`: the custom
    prompt when present, otherwise just the keyword line (no base
    instruction — the provider prompt parameter is omitted when empty). -/
def buildAudioTranscriptionPrompt (opts : Model.AudioOptions) : String :=
  let customPrompt := goTrimSpace opts.prompt
  if customPrompt ≠ "" then customPrompt
  else buildCommonMissedWordsPrompt opts.keywords

end OpenAI

/-- C9: a non-blank custom prompt is used as-is (trimmed) with no keyword
    hints in both providers; with a blank custom prompt the normalized
    keyword list (all-empty entries dropped, blank mistypes dropped) drives a
    single `Common missed words: <json-array>` line — appended after the
    default instruction for gemini, standing alone for openai — and no line
    at all when normalization leaves nothing. -/
theorem C9_audio_prompt :
    (∀ opts : Model.AudioOptions, goTrimSpace opts.prompt ≠ "" →
        Gemini.buildAudioTranscriptionPrompt opts = goTrimSpace opts.prompt ∧
        OpenAI.buildAudioTranscriptionPrompt opts = goTrimSpace opts.prompt) ∧
    (∀ opts : Model.AudioOptions, goTrimSpace opts.prompt = "" →
        Audio.normalizeAudioKeywords opts.keywords = [] →
        Gemini.buildAudioTranscriptionPrompt opts =
          "Transcribe this audio accurately. Return only the transcript text." ∧
        OpenAI.buildAudioTranscriptionPrompt opts = "") ∧
    (∀ opts : Model.AudioOptions, goTrimSpace opts.prompt = "" →
        Audio.normalizeAudioKeywords opts.keywords ≠ [] →
        Gemini.buildAudioTranscriptionPrompt opts =
          "Transcribe this audio accurately. Return only the transcript text." ++ "\n" ++
            "Common missed words: " ++
            Audio.marshalKeywords (Audio.normalizeAudioKeywords opts.keywords) ∧
        OpenAI.buildAudioTranscriptionPrompt opts =
          "Common missed words: " ++
            Audio.marshalKeywords (Audio.normalizeAudioKeywords opts.keywords)) ∧
    (∀ (ks : List Model.AudioKeyword) (k : Model.AudioKeyword),
        k ∈ Audio.normalizeAudioKeywords ks →
        (k.word ≠ "" ∨ k.definition ≠ "" ∨ k.commonMistypes ≠ []) ∧
        ∀ m ∈ k.commonMistypes, m ≠ "") := by
  refine ⟨?_, ?_, ?_, ?_⟩
  · intro opts h
    exact ⟨by simp [Gemini.buildAudioTranscriptionPrompt, h],
      by simp [OpenAI.buildAudioTranscriptionPrompt, h]⟩
  · intro opts h hnorm
    refine ⟨?_, ?_⟩
    · simp [Gemini.buildAudioTranscriptionPrompt, h, Gemini.buildCommonMissedWordsPrompt,
        hnorm]
    · simp [OpenAI.buildAudioTranscriptionPrompt, h, OpenAI.buildCommonMissedWordsPrompt,
        hnorm]
  · intro opts h hnorm
    have hne : (Audio.normalizeAudioKeywords opts.keywords).isEmpty = false := by
      simpa [List.isEmpty_iff] using hnorm
    have hline : ("Common missed words: " ++
        Audio.marshalKeywords (Audio.normalizeAudioKeywords opts.keywords)) ≠ "" := by
      intro hh
      have hlen := congrArg String.length hh
      simp [String.length_append] at hlen
      exact absurd hlen.1 (by decide)
    refine ⟨?_, ?_⟩
    · simp [Gemini.buildAudioTranscriptionPrompt, h, Gemini.buildCommonMissedWordsPrompt,
        hne, hline, String.append_assoc]
      rw [← String.append_assoc]
      rfl
    · simp [OpenAI.buildAudioTranscriptionPrompt, h, OpenAI.buildCommonMissedWordsPrompt,
        hne]
  · intro ks k hmem
    unfold Audio.normalizeAudioKeywords at hmem
    by_cases hks : ks.isEmpty
    · simp [hks] at hmem
    · simp only [hks, if_false] at hmem
      obtain ⟨orig, -, hclean⟩ := List.mem_filterMap.mp hmem
      simp only [Audio.cleanKeyword] at hclean
      split at hclean
      · simp at hclean
      · rename_i hnot
        simp only [Option.some.injEq] at hclean
        subst hclean
        refine ⟨?_, ?_⟩
        · simp only [ne_eq]
          tauto
        · intro m hm
          simpa using (List.mem_filter.mp hm).2

/-- Witness for C9 at concrete options: a non-blank custom prompt survives
    as-is with no keyword line; a keyword that normalizes away leaves the
    default instruction (gemini) and the empty prompt (openai); a real
    keyword produces the single `Common missed words:` JSON line. -/
theorem C9_audio_prompt_witness :
    Gemini.buildAudioTranscriptionPrompt
        { prompt := "  use this exact prompt  ",
          keywords := [{ word := "x", commonMistypes := [], definition := "" }] } =
      "use this exact prompt" ∧
    Gemini.buildAudioTranscriptionPrompt
        { prompt := "",
          keywords := [{ word := " ", commonMistypes := ["", " "], definition := "" }] } =
      "Transcribe this audio accurately. Return only the transcript text." ∧
    OpenAI.buildAudioTranscriptionPrompt
        { prompt := "",
          keywords := [{ word := "nephron", commonMistypes := [" nefron "],
                         definition := "" }] } =
      ("Common missed words: " ++
        "[\x7b\"word\":\"nephron\",\"common_mistypes\":[\"nefron\"],\"definition\":\"\"\x7d]") := by
  refine ⟨?_, ?_, ?_⟩
  · exact ((C9_audio_prompt.1 { prompt := "  use this exact prompt  ", keywords := [{ word := "x", commonMistypes := [], definition := "" }] } (by decide)).1).trans (by decide)
  · exact (C9_audio_prompt.2.1 { prompt := "", keywords := [{ word := " ", commonMistypes := ["", " "], definition := "" }] } rfl (by decide)).1
  · exact ((C9_audio_prompt.2.2.1 { prompt := "", keywords := [{ word := "nephron", commonMistypes := [" nefron "], definition := "" }] } rfl (by decide)).2).trans (by decide)

/-! ## pkg/mcp: the process-wide tool-name cache (`tools.go`,
`FetchListOfTools`) -/

namespace MCP

/-- The process-wide state behind `FetchListOfTools`: `store` is the heap of
    allocated string slices (positions are slice identities, so aliasing is
    observable), and `cache` is `cachedToolsByURL`, mapping a server URL to
    the identity of its cached slice. -/
structure ToolCacheState where
  store : List (List String) := []
  cache : List (String × Nat) := []

/-- Map read `cachedToolsByURL[serverURL]`. -/
def cacheLookup : List (String × Nat) → String → Option Nat
  | [], _ => none
  | kv :: rest, url => if kv.1 = url then some kv.2 else cacheLookup rest url

/-- `FetchListOfTools` from `pkg/mcp/tools.go`; `server` is
    `actuallyFetchListOfTools` (the MCP network exchange) and the trailing
    `Bool` records whether it was contacted.  Every `append([]string(nil),
    x...)` of the Go code allocates a fresh slice here.  The double-checked
    lock re-read collapses in this sequential model. -/
def FetchListOfTools (st : ToolCacheState) (serverURL authToken : String)
    (server : String → String → Except GoError (List String)) :
    Except GoError Nat × ToolCacheState × Bool :=
  match cacheLookup st.cache serverURL with
  | some id =>
      (.ok st.store.length,
       { st with store := st.store ++ [st.store.getD id []] }, false)
  | none =>
      match server serverURL authToken with
      | .error e => (.error e, st, true)
      | .ok tmpTools =>
          let cacheId := st.store.length
          let store1 := st.store ++ [tmpTools]
          let cache1 := st.cache ++ [(serverURL, cacheId)]
          (.ok store1.length, { store := store1 ++ [tmpTools], cache := cache1 }, true)

/-- Cache well-formedness: every cached slice identity is allocated. -/
def CacheWF (st : ToolCacheState) : Prop :=
  ∀ p ∈ st.cache, p.2 < st.store.length

theorem cacheLookup_append_of_none (c : List (String × Nat)) (url : String) (i : Nat)
    (h : cacheLookup c url = none) : cacheLookup (c ++ [(url, i)]) url = some i := by
  induction c with
  | nil => simp [cacheLookup]
  | cons kv rest ih =>
      by_cases hk : kv.1 = url
      · simp [cacheLookup, hk] at h
      · simp only [cacheLookup, hk, if_false] at h
        simp [List.cons_append, cacheLookup, hk, ih h]

theorem getD_append_left {α : Type} (l l' : List α) (n : Nat) (d : α)
    (h : n < l.length) : (l ++ l').getD n d = l.getD n d := by
  induction l generalizing n with
  | nil => simp at h
  | cons x xs ih =>
      cases n with
      | zero => simp
      | succ m =>
          simp only [List.cons_append, List.getD_cons_succ]
          exact ih m (by simpa using h)

theorem getD_append_self {α : Type} (l : List α) (x : α) (d : α) :
    (l ++ [x]).getD l.length d = x := by
  induction l with
  | nil => simp
  | cons y ys ih => simp [ih]

end MCP

/-- C10: `FetchListOfTools` memoizes tool-name discovery by server URL — a
    cache hit contacts no server and leaves the cache untouched; a successful
    miss installs the URL so every later call with it (any token, any server,
    even an unreachable one) is served from the cache with the same name
    list; and every call returns a freshly allocated slice whose identity the
    cache never holds, so callers cannot mutate the cache. -/
theorem C10_tool_name_cache :
    (∀ (st : MCP.ToolCacheState) (url tok : String)
        (server : String → String → Except GoError (List String)) (id : Nat),
        MCP.cacheLookup st.cache url = some id →
        MCP.FetchListOfTools st url tok server =
          (.ok st.store.length,
           { st with store := st.store ++ [st.store.getD id []] }, false)) ∧
    (∀ (st : MCP.ToolCacheState) (url tok : String)
        (server : String → String → Except GoError (List String))
        (tools : List String),
        MCP.cacheLookup st.cache url = none → server url tok = .ok tools →
        MCP.FetchListOfTools st url tok server =
          (.ok (st.store.length + 1),
           { store := (st.store ++ [tools]) ++ [tools],
             cache := st.cache ++ [(url, st.store.length)] }, true) ∧
        MCP.cacheLookup (st.cache ++ [(url, st.store.length)]) url =
          some st.store.length) ∧
    (∀ (st : MCP.ToolCacheState) (url tok tok' : String)
        (server server' : String → String → Except GoError (List String))
        (tools : List String),
        MCP.cacheLookup st.cache url = none → server url tok = .ok tools →
        ∀ st' : MCP.ToolCacheState,
          st' = (MCP.FetchListOfTools st url tok server).2.1 →
          MCP.FetchListOfTools st' url tok' server' =
            (.ok st'.store.length, { st' with store := st'.store ++ [tools] }, false)) ∧
    (∀ (st : MCP.ToolCacheState) (url tok : String)
        (server : String → String → Except GoError (List String))
        (r : Except GoError Nat) (st' : MCP.ToolCacheState) (c : Bool),
        MCP.CacheWF st →
        MCP.FetchListOfTools st url tok server = (r, st', c) →
        MCP.CacheWF st' ∧ ∀ i, r = .ok i → ∀ p ∈ st'.cache, p.2 ≠ i) := by
  have hit : ∀ (st : MCP.ToolCacheState) (url tok : String)
      (server : String → String → Except GoError (List String)) (id : Nat),
      MCP.cacheLookup st.cache url = some id →
      MCP.FetchListOfTools st url tok server =
        (.ok st.store.length,
         { st with store := st.store ++ [st.store.getD id []] }, false) := by
    intro st url tok server id h
    simp [MCP.FetchListOfTools, h]
  have miss : ∀ (st : MCP.ToolCacheState) (url tok : String)
      (server : String → String → Except GoError (List String)) (tools : List String),
      MCP.cacheLookup st.cache url = none → server url tok = .ok tools →
      MCP.FetchListOfTools st url tok server =
        (.ok (st.store.length + 1),
         { store := (st.store ++ [tools]) ++ [tools],
           cache := st.cache ++ [(url, st.store.length)] }, true) := by
    intro st url tok server tools h hs
    simp [MCP.FetchListOfTools, h, hs]
  refine ⟨hit, ?_, ?_, ?_⟩
  · intro st url tok server tools h hs
    exact ⟨miss st url tok server tools h hs,
      MCP.cacheLookup_append_of_none st.cache url st.store.length h⟩
  · intro st url tok tok' server server' tools h hs st' hst'
    rw [miss st url tok server tools h hs] at hst'
    subst hst'
    have hlook : MCP.cacheLookup (st.cache ++ [(url, st.store.length)]) url =
        some st.store.length :=
      MCP.cacheLookup_append_of_none st.cache url st.store.length h
    have hgetD : (((st.store ++ [tools]) ++ [tools]) : List (List String)).getD
        st.store.length [] = tools := by
      rw [MCP.getD_append_left _ _ _ _ (by simp), MCP.getD_append_self]
    rw [hit _ url tok' server' st.store.length hlook, hgetD]
  · intro st url tok server r st' c hwf hrun
    rw [MCP.FetchListOfTools] at hrun
    split at hrun
    · rename_i id hl
      simp only [Prod.mk.injEq] at hrun
      obtain ⟨h1, h2, h3⟩ := hrun
      subst h1 h2
      refine ⟨?_, ?_⟩
      · intro p hp
        have := hwf p hp
        simp only [List.length_append, List.length_cons, List.length_nil]
        omega
      · intro i hi p hp
        have := hwf p hp
        have hi' : st.store.length = i := by
          simpa using hi
        omega
    · split at hrun
      · simp only [Prod.mk.injEq] at hrun
        obtain ⟨h1, h2, h3⟩ := hrun
        subst h1 h2
        refine ⟨hwf, ?_⟩
        intro i hi
        simp at hi
      · rename_i tools hs
        simp only [Prod.mk.injEq] at hrun
        obtain ⟨h1, h2, h3⟩ := hrun
        subst h1 h2
        refine ⟨?_, ?_⟩
        · intro p hp
          simp only [List.mem_append, List.mem_singleton] at hp
          cases hp with
          | inl hp =>
              have := hwf p hp
              simp only [List.length_append, List.length_cons, List.length_nil]
              omega
          | inr hp =>
              subst hp
              simp only [List.length_append, List.length_cons, List.length_nil]
              omega
        · intro i hi p hp
          have hi' : (st.store ++ [tools]).length = i := by
            simpa using hi
          simp only [List.mem_append, List.mem_singleton] at hp
          simp only [List.length_append, List.length_cons, List.length_nil] at hi'
          cases hp with
          | inl hp =>
              have := hwf p hp
              omega
          | inr hp =>
              subst hp
              simp only []
              omega

/-- Witness for C10: one successful fetch caches the two advertised names;
    the next call with a different token and a dead server is served from the
    cache, returning a fresh slice with the same names, without any contact. -/
theorem C10_tool_name_cache_witness :
    MCP.FetchListOfTools {} "https://mcp.example" "tok-a"
        (fun _ _ => .ok ["lookup", "search"]) =
      (.ok 1, { store := [["lookup", "search"], ["lookup", "search"]],
                cache := [("https://mcp.example", 0)] }, true) ∧
    MCP.FetchListOfTools
        { store := [["lookup", "search"], ["lookup", "search"]],
          cache := [("https://mcp.example", 0)] }
        "https://mcp.example" "tok-b" (fun _ _ => .error "server down") =
      (.ok 2,
       { store := [["lookup", "search"], ["lookup", "search"], ["lookup", "search"]],
         cache := [("https://mcp.example", 0)] }, false) := by
  constructor
  · exact ((C10_tool_name_cache.2.1 {} "https://mcp.example" "tok-a"
      (fun _ _ => .ok ["lookup", "search"]) ["lookup", "search"] rfl rfl).1).trans rfl
  · exact (C10_tool_name_cache.1
      { store := [["lookup", "search"], ["lookup", "search"]],
        cache := [("https://mcp.example", 0)] }
      "https://mcp.example" "tok-b" (fun _ _ => .error "server down") 0 rfl).trans rfl
